import Mathlib

/-!
Verification development for the gitly.sh worker (URL shortener edge service).

The definitions below are a shallow embedding of the TypeScript sources:
  - apps/worker/src/url-validator.ts   (URL safety validator, safeFetch)
  - apps/worker/src/qr.ts              (QR render pipeline, logo compositing)
  - apps/worker/src/ua-parser.ts       (hashIP anonymization)
  - the Hono router (redirect / click pipeline)

JavaScript strings are embedded as List Char; JS numbers that can be NaN are
embedded as Option values; the platform APIs (URL parsing, fetch, the photon
image library) are embedded as small models or oracle parameters, documented at
each definition.
-/

set_option linter.unreachableTactic false
set_option linter.unusedTactic false

namespace Gitly

/-- Character list of a string: the embedding works on List Char. -/
def strData (s : String) : List Char := s.data

/-- Model of JS String.prototype.toLowerCase for the ASCII hostnames involved. -/
def toLowerStr (s : List Char) : List Char := s.map Char.toLower

/-- Split a character list on a separator character, like String.prototype.split
with a single-char separator: "a.b" gives ["a","b"], "a." gives ["a",""] and
"" gives [""]. -/
def splitOnChar (sep : Char) : List Char → List (List Char)
  | [] => [[]]
  | c :: cs =>
    let rest := splitOnChar sep cs
    if c = sep then [] :: rest
    else match rest with
      | [] => [[c]]
      | r :: rs => (c :: r) :: rs

/-- Decimal digit test, as the regex class matches ASCII digits. -/
def isDigitCh (c : Char) : Bool := '0' ≤ c && c ≤ '9'

/-- Lowercase hex digit test (the validator lowercases hostnames first). -/
def isHexCh (c : Char) : Bool := isDigitCh c || ('a' ≤ c && c ≤ 'f')

/-- Numeric value of a decimal digit character. -/
def digitVal (c : Char) : Nat := c.toNat - '0'.toNat

/-- Numeric value of a lowercase hex digit character. -/
def hexVal (c : Char) : Nat :=
  if isDigitCh c then digitVal c else c.toNat - 'a'.toNat + 10

/-- Value of a string of decimal digits (used for the canonical parseInt model). -/
def decValue (cs : List Char) : Nat := cs.foldl (fun a c => a * 10 + digitVal c) 0

/-- Value of a string of lowercase hex digits (parseInt with radix 16). -/
def hexValue (cs : List Char) : Nat := cs.foldl (fun a c => a * 16 + hexVal c) 0

/-! ## url-validator.ts : constants -/

/-- PRIVATE_IPV4_RANGES from url-validator.ts: inclusive start/end of each
private or reserved IPv4 block, as 32-bit integers. -/
def PRIVATE_IPV4_RANGES : List (Nat × Nat) :=
  [ (0x0a000000, 0x0affffff)  -- 10.0.0.0/8
  , (0x7f000000, 0x7fffffff)  -- 127.0.0.0/8 loopback
  , (0xa9fe0000, 0xa9feffff)  -- 169.254.0.0/16 link-local incl. AWS metadata
  , (0xac100000, 0xac1fffff)  -- 172.16.0.0/12
  , (0xc0a80000, 0xc0a8ffff)  -- 192.168.0.0/16
  , (0x00000000, 0x00ffffff)  -- 0.0.0.0/8
  , (0x64400000, 0x647fffff)  -- 100.64.0.0/10 carrier-grade NAT
  , (0xc0000000, 0xc00000ff)  -- 192.0.0.0/24 IETF protocol assignments
  , (0xc0000200, 0xc00002ff)  -- 192.0.2.0/24 TEST-NET-1
  , (0xc6336400, 0xc63364ff)  -- 198.51.100.0/24 TEST-NET-2
  , (0xcb007100, 0xcb0071ff)  -- 203.0.113.0/24 TEST-NET-3
  , (0xe0000000, 0xefffffff)  -- 224.0.0.0/4 multicast
  , (0xf0000000, 0xffffffff)  -- 240.0.0.0/4 reserved
  ]

/-- BLOCKED_HOSTNAMES from url-validator.ts (exact, case-insensitive). -/
def BLOCKED_HOSTNAMES : List (List Char) :=
  [strData "localhost", strData "localhost.localdomain",
   strData "ip6-localhost", strData "ip6-loopback"]

/-- BLOCKED_HOSTNAME_SUFFIXES from url-validator.ts. -/
def BLOCKED_HOSTNAME_SUFFIXES : List (List Char) :=
  [strData ".local", strData ".localhost", strData ".internal", strData ".corp",
   strData ".lan", strData ".home.arpa", strData ".intranet",
   strData "metadata.google.internal", strData "metadata.goog"]

/-- CLOUD_METADATA_IPS from url-validator.ts. -/
def CLOUD_METADATA_IPS : List (List Char) :=
  [strData "169.254.169.254", strData "169.254.170.2", strData "fd00:ec2::254"]

/-! ## url-validator.ts : parseIPv4 and range checks -/

/-- One octet of parseIPv4: parseInt(part, 10) followed by the canonicality
check `part !== String(num)`, which rejects empty parts, non-digits, leading
zeros and signs, so a part is accepted exactly when it is the canonical decimal
spelling of a number 0..255. -/
def parseOctet (p : List Char) : Option Nat :=
  if p ≠ [] && p.all isDigitCh && p = (Nat.repr (decValue p)).data then
    let n := decValue p
    if n ≤ 255 then some n else none
  else none

/-- parseIPv4 from url-validator.ts: split on dots, require 4 canonical octets,
fold into a 32-bit big-endian integer.  The JS fold `(result << 8) | num`
with a final `>>> 0` equals the plain fold below because four octets ≤ 255
always yield a value < 2^32. -/
def parseIPv4 (ip : List Char) : Option Nat :=
  let parts := splitOnChar '.' ip
  if parts.length ≠ 4 then none
  else
    let octets := parts.map parseOctet
    if octets.all (·.isSome) then
      some (octets.foldl (fun a o => a * 256 + o.getD 0) 0)
    else none

/-- isPrivateIPv4 from url-validator.ts. -/
def isPrivateIPv4 (n : Nat) : Bool :=
  PRIVATE_IPV4_RANGES.any (fun r => r.1 ≤ n && n ≤ r.2)

/-- isIPv4Address from url-validator.ts: the regex
(three groups of 1-3 digits each followed by a dot, then 1-3 digits)
holds exactly when the dot-split yields four all-digit parts of length 1-3. -/
def isIPv4Address (h : List Char) : Bool :=
  let parts := splitOnChar '.' h
  parts.length = 4 &&
    parts.all (fun p => 1 ≤ p.length && p.length ≤ 3 && p.all isDigitCh)

/-! ## url-validator.ts : IPv6 checks -/

/-- Case-insensitive hex digit test (the IPv6 regexes allow 0-9a-fA-F). -/
def isHexChCI (c : Char) : Bool := isHexCh c.toLower

/-- Model of hostname.replace of the leading-bracket / trailing-bracket regex:
removes one leading open bracket and one trailing close bracket, each when
present. -/
def stripBrackets (h : List Char) : List Char :=
  let h1 := if h.headD ' ' = '[' then h.tail else h
  if h1.getLast? = some ']' then h1.dropLast else h1

/-- Quad shape used by the IPv6-with-dotted-tail regexes: four dot-separated
groups of one to three digits. -/
def isQuadShape (p : List Char) : Bool :=
  let parts := splitOnChar '.' p
  parts.length = 4 &&
    parts.all (fun q => 1 ≤ q.length && q.length ≤ 3 && q.all isDigitCh)

/-- First isIPv6Address regex, hex groups only: the colon-split has 3 to 8
segments, each at most 4 hex digits. -/
def ipv6HexForm (h : List Char) : Bool :=
  let segs := splitOnChar ':' h
  3 ≤ segs.length && segs.length ≤ 8 &&
    segs.all (fun s => s.length ≤ 4 && s.all isHexChCI)

/-- Second isIPv6Address regex, mixed notation: 2 to 6 hex groups followed by
a dotted quad, so the colon-split has 3 to 7 segments, all but the last at
most 4 hex digits, the last of quad shape. -/
def ipv6MixedForm (h : List Char) : Bool :=
  let segs := splitOnChar ':' h
  3 ≤ segs.length && segs.length ≤ 7 &&
    segs.dropLast.all (fun s => s.length ≤ 4 && s.all isHexChCI) &&
    isQuadShape (segs.getLastD [])

/-- isIPv6Address from url-validator.ts: strips brackets, then tests the two
regexes and the bare/leading/trailing double-colon cases. -/
def isIPv6Address (hostname : List Char) : Bool :=
  let cleanHost := stripBrackets hostname
  ipv6HexForm cleanHost || ipv6MixedForm cleanHost ||
    cleanHost = strData "::" ||
    (strData "::").isPrefixOf cleanHost ||
    (strData "::").isSuffixOf cleanHost

/-- isPrivateIPv6 from url-validator.ts: loopback, link-local fe80::/10 (by
the fe8/fe9/fea/feb prefixes), unique-local fc00::/7 (fc/fd prefixes),
unspecified, and IPv4-mapped addresses in dotted and in hex form whose
embedded IPv4 is private. -/
def isPrivateIPv6 (hostname : List Char) : Bool :=
  let cleanHost := toLowerStr (stripBrackets hostname)
  if cleanHost = strData "::1" || cleanHost = strData "0:0:0:0:0:0:0:1" then true
  else if (strData "fe8").isPrefixOf cleanHost || (strData "fe9").isPrefixOf cleanHost ||
          (strData "fea").isPrefixOf cleanHost || (strData "feb").isPrefixOf cleanHost then true
  else if (strData "fc").isPrefixOf cleanHost || (strData "fd").isPrefixOf cleanHost then true
  else if cleanHost = strData "::" || cleanHost = strData "0:0:0:0:0:0:0:0" then true
  else if (strData "::ffff:").isPrefixOf cleanHost then
    -- the two IPv4-mapped regexes share this prefix; the rest is either a
    -- dotted quad or two hex groups
    let rest := cleanHost.drop 7
    if isQuadShape rest then
      match parseIPv4 rest with
      | some n => isPrivateIPv4 n
      | none => false
    else
      match splitOnChar ':' rest with
      | [h1, h2] =>
        if 1 ≤ h1.length && h1.length ≤ 4 && h1.all isHexChCI &&
           1 ≤ h2.length && h2.length ≤ 4 && h2.all isHexChCI then
          -- (high << 16) | low followed by >>> 0 equals this plain sum,
          -- as both halves are below 2^16
          isPrivateIPv4 (hexValue h1 * 65536 + hexValue h2)
        else false
      | _ => false
  else false

/-- isBlockedHostname from url-validator.ts: exact blocklist, blocked
suffixes, and the explicit cloud-metadata IP strings. -/
def isBlockedHostname (hostname : List Char) : Bool :=
  let lowerHost := toLowerStr hostname
  BLOCKED_HOSTNAMES.contains lowerHost ||
    BLOCKED_HOSTNAME_SUFFIXES.any (fun suf => suf.isSuffixOf lowerHost) ||
    CLOUD_METADATA_IPS.contains lowerHost

/-! ## url-validator.ts : numeric / octal / hex hostname regexes

The two bypass regexes are one-or-more repetitions of a group with an
optional trailing dot, so they need a backtracking matcher: after a digit the
match may either extend the current group or start the next group there. -/

/-- Purely numeric hostname regex: one or more digits. -/
def isNumericHost (h : List Char) : Bool := !h.isEmpty && h.all isDigitCh

/-- Matcher states for the one-or-more-groups regexes: expecting a group
start, after the leading zero, expecting the first digit of a run, inside a
digit run, or just after a group's optional dot. -/
inductive GroupMatchState where
  | start
  | afterZero
  | needDigit
  | inDigits
  | afterDot
deriving Repr, DecidableEq

/-- Left-to-right nondeterministic matcher for the hex-IP regex (one or
more groups of 0x, one or more hex digits, an optional dot; the hex marker
and digits are case-insensitive).  Inside a digit run a zero may either
extend the run or begin the following group; both branches are taken. -/
def matchHexRun : GroupMatchState → List Char → Bool
  | .inDigits, [] => true
  | .afterDot, [] => true
  | _, [] => false
  | .start, c :: cs => c = '0' && matchHexRun .afterZero cs
  | .afterZero, c :: cs => (c = 'x' || c = 'X') && matchHexRun .needDigit cs
  | .needDigit, c :: cs => isHexChCI c && matchHexRun .inDigits cs
  | .inDigits, c :: cs =>
    if c = '.' then matchHexRun .afterDot cs
    else if isHexChCI c then
      matchHexRun .inDigits cs || (c = '0' && matchHexRun .afterZero cs)
    else false
  | .afterDot, c :: cs => c = '0' && matchHexRun .afterZero cs

/-- The hex-IP regex on a whole hostname. -/
def matchHexGroups (h : List Char) : Bool := matchHexRun .start h

/-- Left-to-right nondeterministic matcher for the octal-IP regex (one or
more groups of a zero, one or more digits, an optional dot).  Inside a
digit run a zero may either extend the run or begin the following group. -/
def matchOctRun : GroupMatchState → List Char → Bool
  | .inDigits, [] => true
  | .afterDot, [] => true
  | _, [] => false
  | .start, c :: cs => c = '0' && matchOctRun .needDigit cs
  | .afterZero, _ :: _ => false
  | .needDigit, c :: cs => isDigitCh c && matchOctRun .inDigits cs
  | .inDigits, c :: cs =>
    if c = '.' then matchOctRun .afterDot cs
    else if isDigitCh c then
      matchOctRun .inDigits cs || (c = '0' && matchOctRun .needDigit cs)
    else false
  | .afterDot, c :: cs => c = '0' && matchOctRun .needDigit cs

/-- The octal-IP regex on a whole hostname. -/
def matchOctGroups (h : List Char) : Bool := matchOctRun .start h

/-- Character class of dotted-decimal IPv4 literals: digits and dots. -/
def digitDot (c : Char) : Bool := isDigitCh c || c = '.'

/-- Character class of lowercase hex-IP hostnames: hex digits and the x
marker. -/
def hexOrX (c : Char) : Bool := isHexCh c || c = 'x'

/-- Character class of ordinary lowercase DNS hostnames: lowercase letters,
digits, dots and hyphens. -/
def hostChar (c : Char) : Bool := ('a' ≤ c && c ≤ 'z') || isDigitCh c || c = '.' || c = '-'

/-! ## url-validator.ts : validateUrlForFetch -/

/-- UrlValidationResult from url-validator.ts. -/
structure UrlValidationResult where
  valid : Bool
  error : Option String
deriving Repr, DecidableEq

/-- Valid verdict. -/
def vOk : UrlValidationResult := ⟨true, none⟩

/-- Invalid verdict with its error message. -/
def vErr (m : String) : UrlValidationResult := ⟨false, some m⟩

/-- Parsed-URL components as produced by the platform URL constructor:
protocol keeps its trailing colon, the hostname is as serialized by the
parser (lowercased; IPv6 hosts keep their brackets). -/
structure UrlParts where
  protocol : List Char
  username : List Char
  password : List Char
  hostname : List Char
deriving Repr, DecidableEq

/-- Tail of validateUrlForFetch after the IPv4 branch: the IPv6 check, the
purely-numeric check and the octal/hex check, in source order. -/
def checkHostTail (hostname : List Char) : UrlValidationResult :=
  let cleanHostname := stripBrackets hostname
  if (isIPv6Address cleanHostname || isIPv6Address hostname) &&
     (isPrivateIPv6 cleanHostname || isPrivateIPv6 hostname) then
    vErr "Private IPv6 addresses are not allowed"
  else if isNumericHost hostname then
    vErr "Numeric hostnames are not allowed"
  else if matchHexGroups hostname || matchOctGroups hostname then
    vErr "Octal/hex IP notation is not allowed"
  else vOk

/-- validateUrlForFetch from url-validator.ts, on an already parsed URL: the
HTTPS requirement, the credentials check, the hostname blocklist, the IPv4
literal classification and the remaining host checks, in source order. -/
def validateParsedUrl (p : UrlParts) : UrlValidationResult :=
  if p.protocol ≠ strData "https:" then
    vErr "Only HTTPS URLs are allowed"
  else if p.username ≠ [] || p.password ≠ [] then
    vErr "URLs with credentials are not allowed"
  else
    let hostname := toLowerStr p.hostname
    if isBlockedHostname hostname then
      vErr "Internal or metadata hostnames are not allowed"
    else if isIPv4Address hostname then
      match parseIPv4 hostname with
      | none => vErr "Invalid IPv4 address"
      | some ipInt =>
        if isPrivateIPv4 ipInt then vErr "Private IP addresses are not allowed"
        else checkHostTail hostname
    else checkHostTail hostname

/-! ## Platform model: the WHATWG URL constructor

The worker runtime parses URL strings with the platform URL class.  The
model below covers the shapes scheme://[user[:password]@]host[:port][/...]
with ASCII hosts; it lowercases scheme and host as the platform serializer
does.  Percent-encoding, punycode and IPv4 canonicalization of exotic host
spellings are outside the model: concrete URLs used in the theorems avoid
those forms. -/

/-- Scan a scheme followed by the literal colon-slash-slash; returns the
scheme (reversed accumulator) and the remainder. -/
def schemeSplitAux (acc : List Char) : List Char → Option (List Char × List Char)
  | ':' :: '/' :: '/' :: rest => if acc = [] then none else some (acc.reverse, rest)
  | c :: rest =>
    if c.isAlpha || (acc ≠ [] && (isDigitCh c || c = '+' || c = '-' || c = '.')) then
      schemeSplitAux (c :: acc) rest
    else none
  | [] => none

/-- Model of the platform URL constructor, returning the components the
validator reads. -/
def parseURL (s : List Char) : Option UrlParts :=
  match schemeSplitAux [] s with
  | none => none
  | some (scheme, rest) =>
    let authority := rest.takeWhile (fun c => c ≠ '/' && c ≠ '?' && c ≠ '#')
    let groups := splitOnChar '@' authority
    let hostport := groups.getLastD []
    let userinfo := if groups.length ≤ 1 then [] else List.intercalate ['@'] groups.dropLast
    let userSplit := splitOnChar ':' userinfo
    let username := userSplit.headD []
    let password := if userSplit.length ≤ 1 then [] else List.intercalate [':'] userSplit.tail
    let hostPort : Option (List Char × List Char) :=
      match hostport with
      | '[' :: t =>
        let inner := t.takeWhile (· ≠ ']')
        match t.drop inner.length with
        | ']' :: p => some ('[' :: (inner ++ [']']), p)
        | _ => none
      | _ =>
        let host := hostport.takeWhile (· ≠ ':')
        some (host, hostport.drop host.length)
    match hostPort with
    | none => none
    | some (host, portPart) =>
      let portOk := match portPart with
        | [] => true
        | ':' :: p => p.all isDigitCh
        | _ => false
      if host = [] || !portOk then none
      else some ⟨toLowerStr scheme ++ [':'], username, password, toLowerStr host⟩

/-- validateUrlForFetch from url-validator.ts on a raw URL string: parse
failure is the `Invalid URL format` verdict of the catch branch. -/
def validateUrlForFetch (url : List Char) : UrlValidationResult :=
  match parseURL url with
  | none => vErr "Invalid URL format"
  | some parsed => validateParsedUrl parsed

/-! ## url-validator.ts : safeFetch -/

/-- Response fields that safeFetch and the logo pipeline read.  The body is
a byte list (the arrayBuffer contents). -/
structure JsResponse where
  status : Nat
  location : Option (List Char)
  contentType : Option (List Char)
  contentLength : Option (List Char)
  body : List Nat
deriving Repr, DecidableEq

/-- Response.ok of the fetch API: status in the 200 range. -/
def JsResponse.okStatus (r : JsResponse) : Bool := 200 ≤ r.status && r.status < 300

/-- Model of the platform URL resolution new URL(location, base).toString():
an absolute location stands alone; otherwise it is resolved against the base
origin.  Exact for the absolute and root-relative locations exercised here. -/
def resolveLocation (location base : List Char) : List Char :=
  if (schemeSplitAux [] location).isSome then location
  else
    match parseURL base with
    | some p =>
      p.protocol ++ strData "//" ++ p.hostname ++
        (if location.headD ' ' = '/' then location else '/' :: location)
    | none => location

/-- safeFetch from url-validator.ts over a network oracle mapping a URL to
its response: validate the URL, fetch without automatic redirects, and when
the response is a 3xx, require a Location header, resolve and validate the
target, and return the response of fetching the target as-is.  Thrown Error
values are embedded as the error branch with the Error message. -/
def safeFetch (net : List Char → JsResponse) (url : List Char) : Except String JsResponse :=
  let validation := validateUrlForFetch url
  if !validation.valid then
    .error ("URL validation failed: " ++ validation.error.getD "")
  else
    let response := net url
    if 300 ≤ response.status ∧ response.status < 400 then
      match response.location with
      | none => .error "Redirect without Location header"
      | some location =>
        let redirectUrl := resolveLocation location url
        let redirectValidation := validateUrlForFetch redirectUrl
        if !redirectValidation.valid then
          .error ("Redirect blocked: " ++ redirectValidation.error.getD "")
        else .ok (net redirectUrl)
    else .ok response

/-! ## Router (redirect / click pipeline) -/

/-- RESERVED_SLUGS from the router. -/
def RESERVED_SLUGS : List (List Char) :=
  [strData "health", strData "api", strData "admin", strData "_"]

/-- LinkData from the router: the stored destination record. -/
structure LinkData where
  url : List Char
  createdAt : Nat
  createdBy : List Char
deriving Repr, DecidableEq

/-- isValidRedirectUrl from the router: the destination must parse as a URL
and use the https protocol. -/
def isValidRedirectUrl (url : List Char) : Bool :=
  match parseURL url with
  | some parsed => parsed.protocol = strData "https:"
  | none => false

/-- Outcome of the GET slug handler that the claims are about. -/
inductive RedirectOutcome where
  | notFound
  | redirect (status : Nat) (url : List Char)
deriving Repr, DecidableEq

/-- The GET slug handler from the router: reserved-slug check, KV lookup,
JSON parse with the legacy raw-string fallback, the isValidRedirectUrl gate,
then a 302 redirect to the stored destination.  The store is the KV binding
and jsonParseLink models JSON.parse on the stored value (none embeds the
thrown-SyntaxError catch branch that builds the legacy record). -/
def handleRedirect (store : List Char → Option (List Char))
    (jsonParseLink : List Char → Option LinkData) (slug : List Char) :
    RedirectOutcome :=
  if RESERVED_SLUGS.contains (toLowerStr slug) then .notFound
  else
    match store slug with
    | none => .notFound
    | some linkDataRaw =>
      let linkData := (jsonParseLink linkDataRaw).getD ⟨linkDataRaw, 0, strData "unknown"⟩
      if !isValidRedirectUrl linkData.url then .notFound
      else .redirect 302 linkData.url

/-! ## JS numeric helpers

JS numbers that may be NaN are embedded as Option values (none is NaN); the
arithmetic on query parameters and header values stays within small exact
values, embedded as rationals. -/

/-- Model of parseInt(s, 10): skip leading whitespace, optional sign, then a
non-empty digit prefix; anything else is NaN. -/
def jsParseInt (s : List Char) : Option Int :=
  let t := s.dropWhile (fun c => c = ' ' || c = '\t' || c = '\n' || c = '\r')
  let digitsOf : List Char → Option Nat := fun u =>
    let d := u.takeWhile isDigitCh
    if d = [] then none else some (decValue d)
  match t with
  | '-' :: rest => (digitsOf rest).map (fun n => -(n : Int))
  | '+' :: rest => (digitsOf rest).map (fun n => (n : Int))
  | _ => (digitsOf t).map (fun n => (n : Int))

/-- Model of parseFloat: skip leading whitespace, optional sign, digits with
an optional fractional part; a leading dot with digits is also accepted. -/
def jsParseFloat (s : List Char) : Option ℚ :=
  let t := s.dropWhile (fun c => c = ' ' || c = '\t' || c = '\n' || c = '\r')
  let core : List Char → Option ℚ := fun u =>
    let intPart := u.takeWhile isDigitCh
    let rest := u.drop intPart.length
    let fracPart := match rest with
      | '.' :: f => some (f.takeWhile isDigitCh)
      | _ => some []
    match fracPart with
    | none => none
    | some f =>
      if intPart = [] && f = [] then none
      else some ((decValue intPart : ℚ) + (decValue f : ℚ) / ((10 : ℚ) ^ f.length))
  match t with
  | '-' :: rest => (core rest).map Neg.neg
  | '+' :: rest => core rest
  | _ => core t

/-- Math.max with a constant first argument: NaN propagates. -/
def jsMaxC (c : ℚ) : Option ℚ → Option ℚ
  | none => none
  | some q => some (max c q)

/-- Math.min with a constant first argument: NaN propagates. -/
def jsMinC (c : ℚ) : Option ℚ → Option ℚ
  | none => none
  | some q => some (min c q)

/-- Math.round: half rounds toward positive infinity. -/
def jsRound (q : ℚ) : ℤ := Int.floor (q + 1/2)

/-! ## qr.ts : image verification -/

/-- MAX_LOGO_SIZE from qr.ts (2 MB). -/
def MAX_LOGO_SIZE : Nat := 2 * 1024 * 1024

/-- ALLOWED_IMAGE_TYPES from qr.ts. -/
def ALLOWED_IMAGE_TYPES : List (List Char) :=
  [strData "image/png", strData "image/jpeg", strData "image/gif",
   strData "image/webp", strData "image/vnd.microsoft.icon", strData "image/x-icon"]

/-- IMAGE_MAGIC_BYTES from qr.ts: content type, signature bytes, and the
required offset (0 when the source omits it). -/
def IMAGE_MAGIC_BYTES : List (List Char × List Nat × Nat) :=
  [ (strData "image/png", ([0x89, 0x50, 0x4e, 0x47, 0x0d, 0x0a, 0x1a, 0x0a], 0))
  , (strData "image/jpeg", ([0xff, 0xd8, 0xff], 0))
  , (strData "image/gif", ([0x47, 0x49, 0x46, 0x38], 0))
  , (strData "image/webp", ([0x57, 0x45, 0x42, 0x50], 8))
  , (strData "image/vnd.microsoft.icon", ([0x00, 0x00, 0x01, 0x00], 0))
  , (strData "image/x-icon", ([0x00, 0x00, 0x01, 0x00], 0))
  ]

/-- validateImageMagicBytes from qr.ts: the content type must be in the
table, the bytes must be long enough, and the signature must appear at the
required offset (the source's indexed every-loop equals the slice
comparison below under the length guard). -/
def validateImageMagicBytes (bytes : List Nat) (contentType : List Char) : Bool :=
  match IMAGE_MAGIC_BYTES.find? (fun e => e.1 = contentType) with
  | none => false
  | some e =>
    let sig := e.2.1
    let offset := e.2.2
    if bytes.length < offset + sig.length then false
    else (bytes.drop offset).take sig.length = sig

/-- Header value to media type: split on the semicolon, take the first part,
trim it (the optional-chaining pipeline on the content-type header). -/
def contentTypePart (h : Option (List Char)) : Option (List Char) :=
  h.map (fun s =>
    let first := (splitOnChar ';' s).headD []
    (first.dropWhile (· = ' ')).reverse.dropWhile (· = ' ') |>.reverse)

/-- fetchLogoWithSizeLimit from qr.ts: safeFetch, the ok-status check, the
content-type allowlist, and the early content-length ceiling.  The
AbortController timeout is real-time behavior outside the embedding; a
timed-out fetch is one more error outcome of the network oracle. -/
def fetchLogoWithSizeLimit (net : List Char → JsResponse) (logoUrl : List Char) :
    Except String JsResponse :=
  match safeFetch net logoUrl with
  | .error e => .error e
  | .ok response =>
    if !response.okStatus then
      .error ("Failed to fetch logo: " ++ Nat.repr response.status)
    else
      let ct := contentTypePart response.contentType
      if ct = none || ct = some [] || !ALLOWED_IMAGE_TYPES.contains (ct.getD []) then
        .error "Invalid logo content-type"
      else
        match response.contentLength with
        | none => .ok response
        | some cl =>
          match jsParseInt cl with
          | none => .ok response
          | some size =>
            if size > (MAX_LOGO_SIZE : Int) then .error "Logo too large"
            else .ok response

/-! ## qr.ts : grid-snap arithmetic and raster -/

/-- The grid-snap quantities computed inside compositeLogoOnQR. -/
structure GridSnap where
  desiredLogoPx : ℤ
  logoModules : ℤ
  bgModules : ℤ
  logoPixels : ℤ
  bgSize : ℤ
  logoStartModule : ℤ
deriving Repr, DecidableEq

/-- Logo grid-snap arithmetic from compositeLogoOnQR in qr.ts: the desired
logo size is Math.round of the QR content size (moduleCount times cellSize)
times the ratio; logoModules is Math.ceil of desired over cellSize; the
backing plate adds one module of padding per side and is bumped to an odd
module count; the start module is Math.floor of half the remaining span. -/
def gridSnap (moduleCount cellSize : Nat) (logoSizeRatio : ℚ) : GridSnap :=
  let qrContentSize : Nat := moduleCount * cellSize
  let desiredLogoPx : ℤ := jsRound ((qrContentSize : ℚ) * logoSizeRatio)
  let logoModules0 : ℤ := Int.ceil ((desiredLogoPx : ℚ) / (cellSize : ℚ))
  let bgModules0 : ℤ := logoModules0 + 2
  let bgModules : ℤ := if bgModules0 % 2 = 0 then bgModules0 + 1 else bgModules0
  let logoModules : ℤ := bgModules - 2
  { desiredLogoPx := desiredLogoPx
    logoModules := logoModules
    bgModules := bgModules
    logoPixels := logoModules * cellSize
    bgSize := bgModules * cellSize
    logoStartModule := Int.fdiv (moduleCount - bgModules) 2 }

/-- The same arithmetic as the specification text states it, for comparison:
the desired logo pixel size is the requested output size times the ratio
(not the rounded QR content size times the ratio). -/
def gridSnapSpec (size moduleCount cellSize : Nat) (logoSizeRatio : ℚ) : GridSnap :=
  let desiredLogoPx : ℚ := (size : ℚ) * logoSizeRatio
  let logoModules0 : ℤ := Int.ceil (desiredLogoPx / (cellSize : ℚ))
  let bgModules0 : ℤ := logoModules0 + 2
  let bgModules : ℤ := if bgModules0 % 2 = 0 then bgModules0 + 1 else bgModules0
  let logoModules : ℤ := bgModules - 2
  { desiredLogoPx := Int.ceil desiredLogoPx
    logoModules := logoModules
    bgModules := bgModules
    logoPixels := logoModules * cellSize
    bgSize := bgModules * cellSize
    logoStartModule := Int.fdiv (moduleCount - bgModules) 2 }

/-- An RGBA raster image: the shape photon exposes to the worker. -/
structure Img where
  width : Nat
  height : Nat
  pixels : List Nat
deriving Repr, DecidableEq

/-- createWhiteImage from qr.ts: an opaque white RGBA image. -/
def createWhiteImage (width height : Nat) : Img :=
  ⟨width, height, List.replicate (width * height * 4) 255⟩

/-- Model of photon's watermark: the overlay's pixels replace the base's in
the overlay rectangle; the base's dimensions are unchanged.  (The library
composites the overlay at the given offset onto the base in place.) -/
def watermark (base overlay : Img) (ox oy : Nat) : Img :=
  { base with pixels :=
      (List.range (base.width * base.height * 4)).map (fun i =>
        let p := i / 4
        let ch := i % 4
        let x := p % base.width
        let y := p / base.width
        if ox ≤ x && x < ox + overlay.width && oy ≤ y && y < oy + overlay.height then
          overlay.pixels.getD (((y - oy) * overlay.width + (x - ox)) * 4 + ch) 0
        else base.pixels.getD i 0) }

/-- The PNG raster loop of handleQR in qr.ts: margin 2 modules, cellSize
Math.floor of the module room, canvas the actual size (cellSize times
moduleCount plus both margins), white background, each dark module drawn as
a cellSize square.  Written pixel-wise: a pixel is black exactly when it
lies in the module content area on a dark module. -/
def qrRaster (size moduleCount : Nat) (isDark : Nat → Nat → Bool) : Img :=
  let margin : Nat := 2
  let cellSize : Nat := (size - margin * 2) / moduleCount
  let actualSize : Nat := cellSize * moduleCount + margin * 2
  ⟨actualSize, actualSize,
    (List.range (actualSize * actualSize * 4)).map (fun i =>
      let p := i / 4
      let ch := i % 4
      let x := p % actualSize
      let y := p / actualSize
      if ch = 3 then 255
      else if margin ≤ x && x < margin + moduleCount * cellSize &&
              margin ≤ y && y < margin + moduleCount * cellSize &&
              cellSize ≠ 0 &&
              isDark ((y - margin) / cellSize) ((x - margin) / cellSize) then 0
      else 255)⟩

/-! ## qr.ts : parseOptions -/

/-- Output format of a QR render. -/
inductive QRFormat where
  | png
  | svg
deriving Repr, DecidableEq

/-- QROptions from qr.ts.  size and logoSize are JS numbers that may be NaN
(embedded as none). -/
structure QROptions where
  size : Option ℚ
  format : QRFormat
  logo : Option (List Char)
  logoSize : Option ℚ
  autoLogo : Bool
deriving Repr, DecidableEq

/-- parseOptions from qr.ts over the four query parameters (none is an
absent parameter): size is Math.min(1024, Math.max(64, parseInt(... or
'256'))); format is svg only on the exact value svg; logo_size is
Math.min(0.35, Math.max(0.15, parseFloat(... or '0.25'))); autoLogo is set
when no logo parameter is present.  The JS or-fallback also replaces an
empty string. -/
def jsOrDefault (q : Option (List Char)) (d : String) : List Char :=
  match q with
  | none => strData d
  | some s => if s = [] then strData d else s

def parseOptions (sizeQ formatQ logoQ logoSizeQ : Option (List Char)) : QROptions :=
  { size := jsMinC 1024 (jsMaxC 64 ((jsParseInt (jsOrDefault sizeQ "256")).map (fun n => (n : ℚ))))
    format := if formatQ = some (strData "svg") then .svg else .png
    logo := logoQ
    logoSize := jsMinC (35/100) (jsMaxC (15/100) (jsParseFloat (jsOrDefault logoSizeQ "0.25")))
    autoLogo := logoQ = none }

/-! ## qr.ts : compositeLogoOnQR and the handleQR branches

The photon library calls are oracles: decodeImage models
PhotonImage.new_from_byteslice (none embeds a decoding throw), resizeImage
models resize with the Lanczos3 filter (none embeds a throw).  The
byteslice/get_bytes PNG round-trip is elided: the pipeline is modeled at
the raster level, so its outcome is the final image. -/

/-- compositeLogoOnQR from qr.ts: fetch the logo through
fetchLogoWithSizeLimit, re-check the downloaded length against the ceiling,
verify the magic bytes against the declared content type, decode, snap the
logo geometry to the module grid, resize, build the white backing plate,
and composite plate and logo onto the QR raster.  The unused size argument
of the source function only feeds logging and is omitted. -/
def compositeLogoOnQR (net : List Char → JsResponse)
    (decodeImage : List Nat → Option Img)
    (resizeImage : Img → Nat → Nat → Option Img)
    (qrImage : Img) (logoUrl : List Char) (logoSizeRatio : ℚ)
    (moduleCount cellSize margin : Option Nat) : Except String Img :=
  match fetchLogoWithSizeLimit net logoUrl with
  | .error e => .error e
  | .ok logoResponse =>
    let logoBuffer := logoResponse.body
    if logoBuffer.length > MAX_LOGO_SIZE then .error "Logo exceeds maximum size"
    else
      let contentType := (contentTypePart logoResponse.contentType).getD []
      if !validateImageMagicBytes logoBuffer contentType then
        .error "Logo file signature does not match content-type"
      else
        match decodeImage logoBuffer with
        | none => .error "Failed to decode logo image"
        | some logoImage =>
          let actualMargin := margin.getD 2
          let actualModuleCount := moduleCount.getD 33
          let actualCellSize :=
            cellSize.getD ((qrImage.width - actualMargin * 2) / actualModuleCount)
          let gs := gridSnap actualModuleCount actualCellSize logoSizeRatio
          let logoPixels := gs.logoPixels.toNat
          let bgSize := gs.bgSize.toNat
          let paddingPx := actualCellSize
          match resizeImage logoImage logoPixels logoPixels with
          | none => .error "Failed to resize logo"
          | some resizedLogo =>
            let whiteBackground := createWhiteImage bgSize bgSize
            let plate := watermark whiteBackground resizedLogo paddingPx paddingPx
            let centerX := ((actualMargin : ℤ) + gs.logoStartModule * actualCellSize).toNat
            .ok (watermark qrImage plate centerX centerX)

/-- Replace the first occurrence of a pattern in a character list, as the
single-string JS replace does. -/
def replaceFirst (pat repl : List Char) : List Char → List Char
  | [] => []
  | c :: cs =>
    if pat.isPrefixOf (c :: cs) then repl ++ (c :: cs).drop pat.length
    else c :: replaceFirst pat repl cs

/-- Global replacement of double dashes by double underscores (the
sanitizer applied to the logo error message before it enters the SVG
comment). -/
def replaceDoubleDash : List Char → List Char
  | '-' :: '-' :: cs => '_' :: '_' :: replaceDoubleDash cs
  | c :: cs => c :: replaceDoubleDash cs
  | [] => []

/-- The SVG logo-failure fallback of handleQR: the closing tag is replaced
by a diagnostic comment plus the closing tag, leaving the QR contents
as generated. -/
def svgLogoErrorFallback (svg msg : List Char) : List Char :=
  replaceFirst (strData "</svg>")
    (strData "<!-- LOGO_ERROR: " ++ replaceDoubleDash msg ++ strData " --></svg>") svg

/-- Status and raster of a PNG QR response. -/
structure QRPngOutcome where
  status : Nat
  image : Img
deriving Repr, DecidableEq

/-- Status and body of an SVG QR response. -/
structure QRSvgOutcome where
  status : Nat
  body : List Char
deriving Repr, DecidableEq

/-- The PNG logo branch of handleQR: with a resolved logo, try the
compositing step and fall back to the bare QR raster on any error; the
response is always served with status 200. -/
def handleQRPngBranch (qrImage : Img) (resolvedLogo : Option (List Char))
    (composite : List Char → Except String Img) : QRPngOutcome :=
  match resolvedLogo with
  | none => ⟨200, qrImage⟩
  | some logo =>
    match composite logo with
    | .ok img => ⟨200, img⟩
    | .error _ => ⟨200, qrImage⟩

/-- The SVG logo branch of handleQR: with a resolved logo, try the
fetch-and-embed step and fall back to the bare SVG plus a diagnostic
comment on any error; the response is always served with status 200. -/
def handleQRSvgBranch (svg : List Char) (resolvedLogo : Option (List Char))
    (logoStep : List Char → Except String (List Char)) : QRSvgOutcome :=
  match resolvedLogo with
  | none => ⟨200, svg⟩
  | some logo =>
    match logoStep logo with
    | .ok finalSvg => ⟨200, finalSvg⟩
    | .error msg => ⟨200, svgLogoErrorFallback svg (strData msg)⟩

/-- Base64 alphabet used by btoa. -/
def base64Alphabet : List Char :=
  strData "ABCDEFGHIJKLMNOPQRSTUVWXYZabcdefghijklmnopqrstuvwxyz0123456789+/"

/-- Base64 encoding of a byte list (the btoa step of the data-URI path). -/
def base64Encode : List Nat → List Char
  | b1 :: b2 :: b3 :: rest =>
    let n := b1 % 256 * 65536 + b2 % 256 * 256 + b3 % 256
    base64Alphabet.getD (n / 262144) 'A' :: base64Alphabet.getD (n / 4096 % 64) 'A' ::
      base64Alphabet.getD (n / 64 % 64) 'A' :: base64Alphabet.getD (n % 64) 'A' ::
      base64Encode rest
  | [b1, b2] =>
    let n := b1 % 256 * 65536 + b2 % 256 * 256
    [base64Alphabet.getD (n / 262144) 'A', base64Alphabet.getD (n / 4096 % 64) 'A',
     base64Alphabet.getD (n / 64 % 64) 'A', '=']
  | [b1] =>
    let n := b1 % 256 * 65536
    [base64Alphabet.getD (n / 262144) 'A', base64Alphabet.getD (n / 4096 % 64) 'A', '=', '=']
  | [] => []

/-- fetchLogoAsDataUri from qr.ts: fetch with the shared limits, re-check
the downloaded size, verify magic bytes against the declared type (with the
image/png fallback for a missing type), convert to PNG through photon
(pngEncode models get_bytes), and build the data URI. -/
def fetchLogoAsDataUri (net : List Char → JsResponse)
    (decodeImage : List Nat → Option Img) (pngEncode : Img → List Nat)
    (logoUrl : List Char) : Except String (List Char) :=
  match fetchLogoWithSizeLimit net logoUrl with
  | .error e => .error e
  | .ok response =>
    let contentType :=
      match contentTypePart response.contentType with
      | none => strData "image/png"
      | some ct => if ct = [] then strData "image/png" else ct
    let bytes := response.body
    if bytes.length > MAX_LOGO_SIZE then .error "Logo exceeds maximum size"
    else if !validateImageMagicBytes bytes contentType then
      .error "Logo file signature does not match content-type"
    else
      match decodeImage bytes with
      | none => .error "Failed to convert logo to PNG"
      | some logoImage =>
        .ok (strData "data:image/png;base64," ++ base64Encode (pngEncode logoImage))

/-! ## ua-parser.ts : hashIP

hashIP signs the namespaced message with HMAC-SHA-256 through the Web
Crypto API.  The algorithm is embedded in full (FIPS 180-4 / RFC 2104) so
the hash contract is about the real function, with 32-bit words as Nat
reduced mod 2^32. -/

/-- 2^32, the word modulus. -/
def M32 : Nat := 4294967296

/-- Addition mod 2^32. -/
def add32 (a b : Nat) : Nat := (a + b) % M32

/-- Right rotation of a 32-bit word. -/
def rotr32 (k x : Nat) : Nat := (x >>> k) ||| ((x <<< (32 - k)) % M32)

/-- Bitwise complement of a 32-bit word. -/
def not32 (x : Nat) : Nat := x ^^^ (M32 - 1)

/-- SHA-256 message-schedule sigma-0. -/
def mSigma0 (x : Nat) : Nat := rotr32 7 x ^^^ rotr32 18 x ^^^ (x >>> 3)

/-- SHA-256 message-schedule sigma-1. -/
def mSigma1 (x : Nat) : Nat := rotr32 17 x ^^^ rotr32 19 x ^^^ (x >>> 10)

/-- SHA-256 compression Sigma-0. -/
def cSigma0 (x : Nat) : Nat := rotr32 2 x ^^^ rotr32 13 x ^^^ rotr32 22 x

/-- SHA-256 compression Sigma-1. -/
def cSigma1 (x : Nat) : Nat := rotr32 6 x ^^^ rotr32 11 x ^^^ rotr32 25 x

/-- SHA-256 choose function. -/
def chFn (e f g : Nat) : Nat := (e &&& f) ^^^ (not32 e &&& g)

/-- SHA-256 majority function. -/
def majFn (a b c : Nat) : Nat := (a &&& b) ^^^ (a &&& c) ^^^ (b &&& c)

/-- The eight SHA-256 working variables. -/
structure Sha256State where
  a : Nat
  b : Nat
  c : Nat
  d : Nat
  e : Nat
  f : Nat
  g : Nat
  h : Nat
deriving Repr, DecidableEq

/-- SHA-256 round constants (fractional parts of the cube roots of the
first sixty-four primes). -/
def SHA256_K : List Nat :=
  [ 1116352408, 1899447441, 3049323471, 3921009573,
    961987163, 1508970993, 2453635748, 2870763221,
    3624381080, 310598401, 607225278, 1426881987,
    1925078388, 2162078206, 2614888103, 3248222580,
    3835390401, 4022224774, 264347078, 604807628,
    770255983, 1249150122, 1555081692, 1996064986,
    2554220882, 2821834349, 2952996808, 3210313671,
    3336571891, 3584528711, 113926993, 338241895,
    666307205, 773529912, 1294757372, 1396182291,
    1695183700, 1986661051, 2177026350, 2456956037,
    2730485921, 2820302411, 3259730800, 3345764771,
    3516065817, 3600352804, 4094571909, 275423344,
    430227734, 506948616, 659060556, 883997877,
    958139571, 1322822218, 1537002063, 1747873779,
    1955562222, 2024104815, 2227730452, 2361852424,
    2428436474, 2756734187, 3204031479, 3329325298 ]

/-- SHA-256 initial state (fractional parts of the square roots of the
first eight primes). -/
def SHA256_INIT : Sha256State :=
  ⟨1779033703, 3144134277, 1013904242, 2773480762,
   1359893119, 2600822924, 528734635, 1541459225⟩

/-- Extend the message schedule, kept reversed so the four taps are list
heads: reversed index 1 is w of i minus 2, 6 is i minus 7, 14 is i minus
15, 15 is i minus 16. -/
def extendScheduleRev : Nat → List Nat → List Nat
  | 0, ws => ws
  | n + 1, ws =>
    let w := add32 (add32 (mSigma1 (ws.getD 1 0)) (ws.getD 6 0))
                   (add32 (mSigma0 (ws.getD 14 0)) (ws.getD 15 0))
    extendScheduleRev n (w :: ws)

/-- The full 64-word schedule of a 16-word block. -/
def sha256Schedule (block : List Nat) : List Nat :=
  (extendScheduleRev 48 block.reverse).reverse

/-- One SHA-256 round. -/
def sha256Round (st : Sha256State) (kw : Nat × Nat) : Sha256State :=
  let t1 := add32 st.h (add32 (cSigma1 st.e) (add32 (chFn st.e st.f st.g) (add32 kw.1 kw.2)))
  let t2 := add32 (cSigma0 st.a) (majFn st.a st.b st.c)
  ⟨add32 t1 t2, st.a, st.b, st.c, add32 st.d t1, st.e, st.f, st.g⟩

/-- Compression of one block: sixty-four rounds, then the feed-forward
addition into the chaining state. -/
def sha256Block (st : Sha256State) (block : List Nat) : Sha256State :=
  let r := (SHA256_K.zip (sha256Schedule block)).foldl sha256Round st
  ⟨add32 st.a r.a, add32 st.b r.b, add32 st.c r.c, add32 st.d r.d,
   add32 st.e r.e, add32 st.f r.f, add32 st.g r.g, add32 st.h r.h⟩

/-- Big-endian bytes of a 64-bit length value. -/
def be64 (n : Nat) : List Nat :=
  [n >>> 56 % 256, n >>> 48 % 256, n >>> 40 % 256, n >>> 32 % 256,
   n >>> 24 % 256, n >>> 16 % 256, n >>> 8 % 256, n % 256]

/-- Big-endian bytes of a 32-bit word. -/
def be32 (n : Nat) : List Nat := [n >>> 24 % 256, n >>> 16 % 256, n >>> 8 % 256, n % 256]

/-- SHA-256 padding: the 0x80 byte, zeros to 56 mod 64, and the bit length
as eight big-endian bytes. -/
def sha256Pad (msg : List Nat) : List Nat :=
  msg ++ 0x80 :: List.replicate ((119 - msg.length % 64) % 64) 0 ++ be64 (8 * msg.length)

/-- Split a byte list into 64-byte blocks. -/
def toBlocks : List Nat → List (List Nat)
  | [] => []
  | c :: cs => ((c :: cs).take 64) :: toBlocks ((c :: cs).drop 64)
termination_by l => l.length
decreasing_by all_goals (simp; omega)

/-- Big-endian 32-bit words of a block. -/
def toWords : List Nat → List Nat
  | b0 :: b1 :: b2 :: b3 :: rest =>
    (b0 * 16777216 + b1 * 65536 + b2 * 256 + b3) :: toWords rest
  | _ => []

/-- The digest bytes of a final state. -/
def sha256DigestBytes (st : Sha256State) : List Nat :=
  be32 st.a ++ be32 st.b ++ be32 st.c ++ be32 st.d ++
    be32 st.e ++ be32 st.f ++ be32 st.g ++ be32 st.h

/-- SHA-256 of a byte list. -/
def sha256 (msg : List Nat) : List Nat :=
  sha256DigestBytes (((toBlocks (sha256Pad msg)).map toWords).foldl sha256Block SHA256_INIT)

/-- HMAC-SHA-256 (RFC 2104): keys longer than the 64-byte block are hashed,
the key is zero-padded to the block size, and the inner and outer pads are
0x36 and 0x5c. -/
def hmacSha256 (key msg : List Nat) : List Nat :=
  let k0 := if key.length > 64 then sha256 key else key
  let kb := k0 ++ List.replicate (64 - k0.length) 0
  sha256 ((kb.map (fun b => b ^^^ 0x5c)) ++ sha256 ((kb.map (fun b => b ^^^ 0x36)) ++ msg))

/-- UTF-8 bytes of one character (the TextEncoder model). -/
def utf8Char (c : Char) : List Nat :=
  let n := c.toNat
  if n < 0x80 then [n]
  else if n < 0x800 then [0xc0 ||| (n >>> 6), 0x80 ||| (n &&& 0x3f)]
  else if n < 0x10000 then
    [0xe0 ||| (n >>> 12), 0x80 ||| ((n >>> 6) &&& 0x3f), 0x80 ||| (n &&& 0x3f)]
  else
    [0xf0 ||| (n >>> 18), 0x80 ||| ((n >>> 12) &&& 0x3f),
     0x80 ||| ((n >>> 6) &&& 0x3f), 0x80 ||| (n &&& 0x3f)]

/-- UTF-8 encoding of a character list (TextEncoder.encode). -/
def utf8Encode (s : List Char) : List Nat := s.flatMap utf8Char

/-- Lowercase hex digits. -/
def hexDigitChars : List Char := strData "0123456789abcdef"

/-- Hex digit of a value (mod 16). -/
def hexDigitChar (n : Nat) : Char := hexDigitChars.getD (n % 16) '0'

/-- Two lowercase hex characters of a byte, as toString(16) with the
two-character zero padding produces for bytes. -/
def byteToHex (b : Nat) : List Char := [hexDigitChar (b / 16), hexDigitChar b]

/-- hashIP from ua-parser.ts: HMAC-SHA-256 with the secret as key over the
message gitly.sh colon date colon ip, hex-encoded and truncated to the
first 16 hex characters (64 bits). -/
def hashIP (ip date secret : List Char) : List Char :=
  let message := strData "gitly.sh:" ++ date ++ strData ":" ++ ip
  ((hmacSha256 (utf8Encode secret) (utf8Encode message)).flatMap byteToHex).take 16

/-! ## Router : recordClick's IP selection -/

/-- The JS or-fallback on a header value: missing and empty are falsy. -/
def jsOrStr (a : Option (List Char)) (fallback : List Char) : List Char :=
  match a with
  | some s => if s = [] then fallback else s
  | none => fallback

/-- The client IP selection of recordClick: CF-Connecting-IP, else
X-Forwarded-For, else the literal string unknown. -/
def clientIPOf (cfConnectingIp xForwardedFor : Option (List Char)) : List Char :=
  jsOrStr cfConnectingIp (jsOrStr xForwardedFor (strData "unknown"))

/-- The visitor hash recordClick stores: hashIP on the selected IP and the
date bucket.  The router calls hashIP(ip, today) without the declared third
argument, so the undefined secret reaches TextEncoder.encode, which
encodes it as the empty byte string: the call equals hashIP with an empty
secret. -/
def recordClickVisitorHash (cfConnectingIp xForwardedFor : Option (List Char))
    (today : List Char) : List Char :=
  hashIP (clientIPOf cfConnectingIp xForwardedFor) today []

/-- A two-hop redirect chain over public hosts: the start URL redirects to
the first hop, the first hop redirects to the final URL, everything else
answers 200. -/
def c1net : List Char → JsResponse := fun url =>
  if url = strData "https://a.example/start" then
    ⟨301, some (strData "https://b.example/hop1"), none, none, []⟩
  else if url = strData "https://b.example/hop1" then
    ⟨301, some (strData "https://c.example/hop2"), none, none, []⟩
  else ⟨200, none, none, none, [1]⟩

/-- A store holding one slug whose destination is the cloud-metadata
address over https. -/
def c2store : List Char → Option (List Char) := fun slug =>
  if slug = strData "abc123" then some (strData "https://169.254.169.254/steal") else none

/-! ## Helper lemmas -/

theorem splitOnChar_ne_nil (sep : Char) (l : List Char) : splitOnChar sep l ≠ [] := by
  induction l with
  | nil => simp [splitOnChar]
  | cons c cs ih =>
    simp only [splitOnChar]
    split_ifs with h
    · simp
    · split <;> simp

theorem splitOnChar_eq_single (sep : Char) (l : List Char) (h : ∀ c ∈ l, c ≠ sep) :
    splitOnChar sep l = [l] := by
  induction l with
  | nil => rfl
  | cons c cs ih =>
    have hc : c ≠ sep := h c (by simp)
    have ih' := ih (fun d hd => h d (by simp [hd]))
    simp only [splitOnChar, if_neg hc, ih']

theorem mem_of_isPrefixOf {p l : List Char} {c : Char} (h : p.isPrefixOf l = true)
    (hc : c ∈ p) : c ∈ l :=
  (List.isPrefixOf_iff_prefix.mp h).subset hc

theorem mem_of_isSuffixOf {p l : List Char} {c : Char} (h : p.isSuffixOf l = true)
    (hc : c ∈ p) : c ∈ l :=
  (List.isSuffixOf_iff_suffix.mp h).subset hc

theorem stripBrackets_subset (h : List Char) : stripBrackets h ⊆ h := by
  unfold stripBrackets
  dsimp only
  split_ifs
  all_goals
    first
      | exact fun _ hx => hx
      | exact List.tail_subset _
      | exact fun c hc => List.tail_subset _ (List.dropLast_subset _ hc)
      | exact fun c hc => List.dropLast_subset _ hc

theorem stripBrackets_eq_self (h : List Char) (h1 : '[' ∉ h) (h2 : ']' ∉ h) :
    stripBrackets h = h := by
  have e1 : (if h.headD ' ' = '[' then h.tail else h) = h := by
    rw [if_neg]
    intro he
    rcases h with _ | ⟨c, t⟩
    · exact absurd he (by decide)
    · exact h1 (by simp only [List.headD_cons] at he; rw [he]; exact List.mem_cons_self _ _)
  unfold stripBrackets
  simp only [e1]
  rw [if_neg]
  intro hgl
  exact h2 (List.mem_of_mem_getLast? hgl)

theorem toLowerStr_eq_self (h : List Char) (hc : ∀ c ∈ h, c.toLower = c) :
    toLowerStr h = h := by
  unfold toLowerStr
  induction h with
  | nil => rfl
  | cons c cs ih =>
    simp only [List.map_cons]
    rw [hc c (by simp), ih (fun d hd => hc d (by simp [hd]))]

theorem Char_toLower_fix (c : Char) (h : c.toNat < 65 ∨ 90 < c.toNat) : c.toLower = c := by
  unfold Char.toLower
  rw [if_neg]
  omega

theorem isHexChCI_of_isHexCh {c : Char} (h : isHexCh c = true) : isHexChCI c = true := by
  unfold isHexChCI
  have hfix : c.toLower = c := by
    apply Char_toLower_fix
    unfold isHexCh isDigitCh at h
    simp only [Bool.or_eq_true, Bool.and_eq_true, decide_eq_true_eq] at h
    rcases h with ⟨-, h2⟩ | ⟨h1, -⟩
    · left
      have e : c.toNat ≤ ('9' : Char).toNat := h2
      have e9 : ('9' : Char).toNat = 57 := rfl
      omega
    · right
      have e : ('a' : Char).toNat ≤ c.toNat := h1
      have ea : ('a' : Char).toNat = 97 := rfl
      omega
  rw [hfix]
  exact h

theorem not_mem_of_all_witness {h : List Char} {P : Char → Bool} (hall : h.all P = true)
    {l : List (List Char)} (hw : ∀ e ∈ l, ∃ c ∈ e, P c = false) : h ∉ l := by
  intro hmem
  obtain ⟨c, hcm, hcp⟩ := hw h hmem
  have hcall := List.all_eq_true.mp hall c hcm
  rw [hcp] at hcall
  cases hcall

theorem isBlockedHostname_eq_false {h : List Char} {P : Char → Bool}
    (hall : h.all P = true) (hlw : toLowerStr h = h)
    (hn : ∀ name ∈ BLOCKED_HOSTNAMES, ∃ c ∈ name, P c = false)
    (hs : ∀ suf ∈ BLOCKED_HOSTNAME_SUFFIXES, ∃ c ∈ suf, P c = false)
    (hm : h ∉ CLOUD_METADATA_IPS) : isBlockedHostname h = false := by
  have g1 : h ∉ BLOCKED_HOSTNAMES := not_mem_of_all_witness hall hn
  have g2 : BLOCKED_HOSTNAME_SUFFIXES.any (fun suf => suf.isSuffixOf h) = false := by
    rw [List.any_eq_false]
    intro suf hsm hsuffix
    obtain ⟨c, hcm, hcp⟩ := hs suf hsm
    have hcall := List.all_eq_true.mp hall c (mem_of_isSuffixOf hsuffix hcm)
    rw [hcp] at hcall
    cases hcall
  simp only [isBlockedHostname, hlw, g2]
  simp [g1, hm]

theorem isIPv6Address_eq_false {h : List Char} (hc : ':' ∉ h) : isIPv6Address h = false := by
  have hcc : ':' ∉ stripBrackets h := fun hx => hc (stripBrackets_subset _ hx)
  have hsingle : splitOnChar ':' (stripBrackets h) = [stripBrackets h] :=
    splitOnChar_eq_single _ _ (by intro c hcm he; subst he; exact hcc hcm)
  have g1 : ipv6HexForm (stripBrackets h) = false := by
    simp [ipv6HexForm, hsingle]
  have g2 : ipv6MixedForm (stripBrackets h) = false := by
    simp [ipv6MixedForm, hsingle]
  have g3 : stripBrackets h ≠ strData "::" := by
    intro he
    exact hcc (by rw [he]; decide)
  have g4 : (strData "::").isPrefixOf (stripBrackets h) = false := by
    cases hb : (strData "::").isPrefixOf (stripBrackets h) with
    | false => rfl
    | true => exact absurd (mem_of_isPrefixOf hb (by decide)) hcc
  have g5 : (strData "::").isSuffixOf (stripBrackets h) = false := by
    cases hb : (strData "::").isSuffixOf (stripBrackets h) with
    | false => rfl
    | true => exact absurd (mem_of_isSuffixOf hb (by decide)) hcc
  simp [isIPv6Address, g1, g2, g3, g4, g5]

theorem isPrivateIPv6_eq_false {h : List Char} (hsb : stripBrackets h = h)
    (hlw : toLowerStr h = h) (hc : ':' ∉ h) (hf : 'f' ∉ h) :
    isPrivateIPv6 h = false := by
  have ne1 : h ≠ strData "::1" := fun he => hc (by rw [he]; decide)
  have ne2 : h ≠ strData "0:0:0:0:0:0:0:1" := fun he => hc (by rw [he]; decide)
  have ne3 : h ≠ strData "::" := fun he => hc (by rw [he]; decide)
  have ne4 : h ≠ strData "0:0:0:0:0:0:0:0" := fun he => hc (by rw [he]; decide)
  have pf : ∀ p : List Char, 'f' ∈ p ∨ ':' ∈ p → p.isPrefixOf h = false := by
    intro p hp
    cases hb : p.isPrefixOf h with
    | false => rfl
    | true =>
      rcases hp with hp | hp
      · exact absurd (mem_of_isPrefixOf hb hp) hf
      · exact absurd (mem_of_isPrefixOf hb hp) hc
  simp only [isPrivateIPv6, hsb, hlw]
  simp [ne1, ne2, ne3, ne4,
    pf (strData "fe8") (Or.inl (by decide)), pf (strData "fe9") (Or.inl (by decide)),
    pf (strData "fea") (Or.inl (by decide)), pf (strData "feb") (Or.inl (by decide)),
    pf (strData "fc") (Or.inl (by decide)), pf (strData "fd") (Or.inl (by decide)),
    pf (strData "::ffff:") (Or.inr (by decide))]

theorem isIPv4Address_eq_false_of_no_dot {h : List Char} (hd : '.' ∉ h) :
    isIPv4Address h = false := by
  unfold isIPv4Address
  rw [splitOnChar_eq_single _ _ (by intro c hcm he; subst he; exact hd hcm)]
  simp

theorem isIPv4Address_eq_false_of_head {c : Char} {t : List Char} (hc : isDigitCh c = false) :
    isIPv4Address (c :: t) = false := by
  rcases eq_or_ne c '.' with rfl | hne
  · unfold isIPv4Address
    simp only [splitOnChar, if_pos rfl]
    simp
  · unfold isIPv4Address
    rcases hs : splitOnChar '.' t with _ | ⟨r, rs⟩
    · exact absurd hs (splitOnChar_ne_nil _ _)
    · simp only [splitOnChar, if_neg hne, hs]
      simp [hc]

theorem isNumericHost_eq_false {h : List Char} {c : Char} (hm : c ∈ h)
    (hc : isDigitCh c = false) : isNumericHost h = false := by
  unfold isNumericHost
  have hall : h.all isDigitCh = false := by
    cases hb : h.all isDigitCh with
    | false => rfl
    | true =>
      have := List.all_eq_true.mp hb c hm
      rw [hc] at this
      cases this
  simp [hall]

theorem matchHexGroups_eq_false_of_head {c : Char} {t : List Char} (hc : c ≠ '0') :
    matchHexGroups (c :: t) = false := by
  simp [matchHexGroups, matchHexRun, hc]

theorem matchOctGroups_eq_false_of_head {c : Char} {t : List Char} (hc : c ≠ '0') :
    matchOctGroups (c :: t) = false := by
  simp [matchOctGroups, matchOctRun, hc]

theorem matchHexRun_inDigits {l : List Char} (hl : l.all isHexChCI = true) :
    matchHexRun .inDigits l = true := by
  induction l with
  | nil => rfl
  | cons c cs ih =>
    simp only [List.all_cons, Bool.and_eq_true] at hl
    have hcdot : c ≠ '.' := by
      intro he
      rw [he] at hl
      exact absurd hl.1 (by decide)
    simp only [matchHexRun, if_neg hcdot, hl.1, if_true, if_pos]
    simp [ih hl.2]

theorem matchHexGroups_hex {ds : List Char} (h1 : ds ≠ []) (h2 : ds.all isHexCh = true) :
    matchHexGroups ('0' :: 'x' :: ds) = true := by
  rcases ds with _ | ⟨d, rest⟩
  · exact absurd rfl h1
  · simp only [List.all_cons, Bool.and_eq_true] at h2
    have hrest : rest.all isHexChCI = true :=
      List.all_eq_true.mpr (fun c hcm => isHexChCI_of_isHexCh (List.all_eq_true.mp h2.2 c hcm))
    simp [matchHexGroups, matchHexRun, isHexChCI_of_isHexCh h2.1, matchHexRun_inDigits hrest]

theorem matchOctRun_inDigits {l : List Char} (hl : l.all isDigitCh = true) :
    matchOctRun .inDigits l = true := by
  induction l with
  | nil => rfl
  | cons c cs ih =>
    simp only [List.all_cons, Bool.and_eq_true] at hl
    have hcdot : c ≠ '.' := by
      intro he
      rw [he] at hl
      exact absurd hl.1 (by decide)
    simp only [matchOctRun, if_neg hcdot, hl.1, if_pos]
    simp [ih hl.2]

theorem matchOctRun_inDigits_append {a b : List Char} (ha : a.all isDigitCh = true)
    (hb1 : b ≠ []) (hb2 : b.all isDigitCh = true) :
    matchOctRun .inDigits (a ++ '.' :: '0' :: b) = true := by
  induction a with
  | nil =>
    rcases b with _ | ⟨e, bs⟩
    · exact absurd rfl hb1
    · simp only [List.all_cons, Bool.and_eq_true] at hb2
      simp [matchOctRun, hb2.1, matchOctRun_inDigits hb2.2]
  | cons c cs ih =>
    simp only [List.all_cons, Bool.and_eq_true] at ha
    have hcdot : c ≠ '.' := by
      intro he
      rw [he] at ha
      exact absurd ha.1 (by decide)
    simp only [List.cons_append, matchOctRun, if_neg hcdot, ha.1, if_pos]
    simp [ih ha.2]

theorem matchOctGroups_dotted {a b : List Char} (ha1 : a ≠ []) (ha2 : a.all isDigitCh = true)
    (hb1 : b ≠ []) (hb2 : b.all isDigitCh = true) :
    matchOctGroups ('0' :: (a ++ '.' :: '0' :: b)) = true := by
  rcases a with _ | ⟨d, as⟩
  · exact absurd rfl ha1
  · simp only [List.all_cons, Bool.and_eq_true] at ha2
    simp [matchOctGroups, matchOctRun, ha2.1,
      matchOctRun_inDigits_append ha2.2 hb1 hb2]

theorem length_flatMap_byteToHex (l : List Nat) :
    (l.flatMap byteToHex).length = 2 * l.length := by
  induction l with
  | nil => simp
  | cons b t ih => simp [byteToHex, ih]; omega

theorem sha256_length (msg : List Nat) : (sha256 msg).length = 32 := by
  simp [sha256, sha256DigestBytes, be32]

theorem hmacSha256_length (key msg : List Nat) : (hmacSha256 key msg).length = 32 := by
  unfold hmacSha256
  exact sha256_length _

theorem hexDigitChars_length : hexDigitChars.length = 16 := rfl

theorem hexDigitChar_mem (n : Nat) : hexDigitChar n ∈ hexDigitChars := by
  unfold hexDigitChar
  have h : n % 16 < hexDigitChars.length := by
    rw [hexDigitChars_length]; exact Nat.mod_lt _ (by omega)
  rw [List.getD_eq_getElem _ _ h]
  exact List.getElem_mem h

theorem not_mem_of_all {h : List Char} {c : Char} {P : Char → Bool}
    (hall : h.all P = true) (hc : P c = false) : c ∉ h := by
  intro hm
  have := List.all_eq_true.mp hall c hm
  rw [hc] at this
  cases this

theorem splitOnChar_cons (sep c : Char) (l : List Char) :
    splitOnChar sep (c :: l) =
      if c = sep then [] :: splitOnChar sep l
      else
        match splitOnChar sep l with
        | [] => [[c]]
        | r :: rs => (c :: r) :: rs := rfl

theorem splitOnChar_append_sep (sep : Char) (x y : List Char) (hx : ∀ c ∈ x, c ≠ sep) :
    splitOnChar sep (x ++ sep :: y) = x :: splitOnChar sep y := by
  induction x with
  | nil => simp [splitOnChar]
  | cons c cs ih =>
    have hc : c ≠ sep := hx c (by simp)
    have ih' := ih (fun d hd => hx d (by simp [hd]))
    rw [List.cons_append, splitOnChar_cons, if_neg hc, ih']

theorem blockedNames_digitDot : ∀ name ∈ BLOCKED_HOSTNAMES, ∃ c ∈ name, digitDot c = false := by
  decide

theorem blockedSufs_digitDot :
    ∀ suf ∈ BLOCKED_HOSTNAME_SUFFIXES, ∃ c ∈ suf, digitDot c = false := by
  decide

theorem blockedNames_digit : ∀ name ∈ BLOCKED_HOSTNAMES, ∃ c ∈ name, isDigitCh c = false := by
  decide

theorem blockedSufs_digit :
    ∀ suf ∈ BLOCKED_HOSTNAME_SUFFIXES, ∃ c ∈ suf, isDigitCh c = false := by
  decide

theorem metaIPs_digit : ∀ e ∈ CLOUD_METADATA_IPS, ∃ c ∈ e, isDigitCh c = false := by
  decide

theorem blockedNames_hexOrX : ∀ name ∈ BLOCKED_HOSTNAMES, ∃ c ∈ name, hexOrX c = false := by
  decide

theorem blockedSufs_hexOrX :
    ∀ suf ∈ BLOCKED_HOSTNAME_SUFFIXES, ∃ c ∈ suf, hexOrX c = false := by
  decide

theorem metaIPs_hexOrX : ∀ e ∈ CLOUD_METADATA_IPS, ∃ c ∈ e, hexOrX c = false := by
  decide

/-! ## Claim C8 : the anonymization hash -/

/-- C8: hashIP is the keyed HMAC-SHA-256 (the definition above) over the
namespaced message, truncated to exactly 16 lowercase hex characters, and
deterministic as a pure function; the click pipeline, however, invokes it
without the secret argument, so the recorded hash uses the empty key rather
than the configured secret (the last conjunct makes that call explicit). -/
theorem claim8_hashIP_contract (ip date secret : List Char)
    (cf xff : Option (List Char)) (today : List Char) :
    (hashIP ip date secret).length = 16 ∧
    (∀ c ∈ hashIP ip date secret, c ∈ hexDigitChars) ∧
    recordClickVisitorHash cf xff today = hashIP (clientIPOf cf xff) today [] := by
  refine ⟨?_, ?_, rfl⟩
  · unfold hashIP
    rw [List.length_take, length_flatMap_byteToHex, hmacSha256_length]
    decide
  · intro c hc
    unfold hashIP at hc
    have hc' := List.mem_of_mem_take hc
    rw [List.mem_flatMap] at hc'
    obtain ⟨b, _, hb⟩ := hc'
    simp only [byteToHex, List.mem_cons, List.not_mem_nil, or_false] at hb
    rcases hb with h | h <;> (rw [h]; exact hexDigitChar_mem _)

/-! ## Claim C10 : clicks without client-IP headers -/

/-- C10: when a request carries neither CF-Connecting-IP nor
X-Forwarded-For, recordClick hashes the literal string unknown, so any two
such clicks on the same date bucket receive the identical visitor hash. -/
theorem claim10_unknown_ip_hash (cf1 xff1 cf2 xff2 : Option (List Char))
    (today : List Char)
    (h1 : cf1 = none) (h2 : xff1 = none) (h3 : cf2 = none) (h4 : xff2 = none) :
    clientIPOf cf1 xff1 = strData "unknown" ∧
    recordClickVisitorHash cf1 xff1 today = recordClickVisitorHash cf2 xff2 today ∧
    recordClickVisitorHash cf1 xff1 today = hashIP (strData "unknown") today [] := by
  subst h1; subst h2; subst h3; subst h4
  exact ⟨rfl, rfl, rfl⟩

/-- C10 witness: the headerless-click theorem applied on a concrete day. -/
theorem claim10_witness :
    clientIPOf none none = strData "unknown" ∧
    recordClickVisitorHash none none (strData "2026-02-15") =
      recordClickVisitorHash none none (strData "2026-02-15") ∧
    recordClickVisitorHash none none (strData "2026-02-15") =
      hashIP (strData "unknown") (strData "2026-02-15") [] :=
  claim10_unknown_ip_hash none none none none (strData "2026-02-15") rfl rfl rfl rfl

/-! ## Claim C5 : magic-byte verification -/

/-- The magic table has one entry per content type. -/
theorem magicTable_key_unique :
    ∀ e1 ∈ IMAGE_MAGIC_BYTES, ∀ e2 ∈ IMAGE_MAGIC_BYTES, e1.1 = e2.1 → e1 = e2 := by
  decide

/-- Every signature in the magic table is non-empty. -/
theorem magicTable_sig_nonempty : ∀ e ∈ IMAGE_MAGIC_BYTES, e.2.1 ≠ [] := by
  decide

/-- Acceptance characterization of validateImageMagicBytes: true exactly for
a content type in the table whose signature occurs at its offset. -/
theorem validateImageMagicBytes_iff (bytes : List Nat) (ct : List Char) :
    validateImageMagicBytes bytes ct = true ↔
      ∃ sig off, (ct, sig, off) ∈ IMAGE_MAGIC_BYTES ∧
        off + sig.length ≤ bytes.length ∧ (bytes.drop off).take sig.length = sig := by
  unfold validateImageMagicBytes
  rcases hfind : IMAGE_MAGIC_BYTES.find? (fun e => e.1 = ct) with _ | e
  · rw [hfind]
    simp only [Bool.false_eq_true, false_iff]
    rintro ⟨sig, off, hmem, -, -⟩
    have h := List.find?_eq_none.mp hfind _ hmem
    simp at h
  · rw [hfind]
    have hkey : e.1 = ct := by
      have := List.find?_some hfind
      simpa using this
    have hmem : e ∈ IMAGE_MAGIC_BYTES := List.mem_of_find?_eq_some hfind
    dsimp only
    constructor
    · intro h
      split_ifs at h with hlen
      exact ⟨e.2.1, e.2.2, by rw [← hkey]; simpa using hmem, by omega, by simpa using h⟩
    · rintro ⟨sig, off, hmem2, hlen, hslice⟩
      have he : e = (ct, sig, off) := by
        apply magicTable_key_unique _ hmem _ hmem2
        exact hkey
      rw [he]
      dsimp only
      split_ifs with hlen2
      · omega
      · simpa using hslice

/-- C5: image verification accepts exactly the byte arrays whose declared
content type is in the fixed table and whose magic signature occurs at that
type's required offset, and corrupting the byte at the required offset of
an accepted array (to anything other than the signature's first byte) makes
verification reject. -/
theorem claim5_magic_bytes :
    (∀ (bytes : List Nat) (ct : List Char),
      validateImageMagicBytes bytes ct = true ↔
        ∃ sig off, (ct, sig, off) ∈ IMAGE_MAGIC_BYTES ∧
          off + sig.length ≤ bytes.length ∧ (bytes.drop off).take sig.length = sig) ∧
    (∀ (bytes : List Nat) (ct : List Char) (sig : List Nat) (off b' : Nat),
      (ct, sig, off) ∈ IMAGE_MAGIC_BYTES →
      validateImageMagicBytes bytes ct = true →
      b' ≠ sig.headD 0 →
      validateImageMagicBytes (bytes.set off b') ct = false) := by
  refine ⟨validateImageMagicBytes_iff, ?_⟩
  intro bytes ct sig off b' hmem hval hneq
  by_contra hfalse
  rw [Bool.not_eq_false] at hfalse
  obtain ⟨sig1, off1, hmem1, hlen1, -⟩ := (validateImageMagicBytes_iff _ _).mp hval
  have he1 : ((ct, sig1, off1) : List Char × List Nat × Nat) = (ct, sig, off) :=
    magicTable_key_unique _ hmem1 _ hmem rfl
  obtain ⟨hs1, ho1⟩ : sig1 = sig ∧ off1 = off := by
    simpa [Prod.ext_iff] using he1
  rw [hs1, ho1] at hlen1
  obtain ⟨sig2, off2, hmem2, hlen2, hslice2⟩ := (validateImageMagicBytes_iff _ _).mp hfalse
  have he2 : ((ct, sig2, off2) : List Char × List Nat × Nat) = (ct, sig, off) :=
    magicTable_key_unique _ hmem2 _ hmem rfl
  obtain ⟨hs2, ho2⟩ : sig2 = sig ∧ off2 = off := by
    simpa [Prod.ext_iff] using he2
  rw [hs2, ho2] at hslice2
  have hsigne : sig ≠ [] := magicTable_sig_nonempty _ hmem
  have hofflt : off < bytes.length := by
    have : 1 ≤ sig.length := by
      cases sig with
      | nil => exact absurd rfl hsigne
      | cons a t => simp
    omega
  -- the head of the matched slice is the corrupted byte
  have hhead : (((bytes.set off b').drop off).take sig.length).head? = some b' := by
    have hne : sig.length ≠ 0 := by
      cases sig with
      | nil => exact absurd rfl hsigne
      | cons a t => simp
    have h1 : (((bytes.set off b').drop off).take sig.length).head? =
        ((bytes.set off b').drop off).head? := by
      rcases (bytes.set off b').drop off with _ | ⟨a, t⟩
      · simp
      · cases hl : sig.length with
        | zero => exact absurd hl hne
        | succ n => simp
    rw [h1, List.head?_drop]
    exact List.getElem?_set_self (by simpa using hofflt)
  rw [hslice2] at hhead
  cases sig with
  | nil => exact absurd rfl hsigne
  | cons a t =>
    simp only [List.head?_cons, Option.some.injEq] at hhead
    exact hneq (by simp [← hhead])

/-- C5 witness: a PNG byte array (signature at offset 0) and a WEBP byte
array (signature at offset 8) are accepted, and corrupting the first
signature byte at its offset is rejected, by the theorem. -/
theorem claim5_witness :
    validateImageMagicBytes [0x89, 0x50, 0x4e, 0x47, 0x0d, 0x0a, 0x1a, 0x0a, 7, 7]
      (strData "image/png") = true ∧
    validateImageMagicBytes
      ([0x89, 0x50, 0x4e, 0x47, 0x0d, 0x0a, 0x1a, 0x0a, 7, 7].set 0 0)
      (strData "image/png") = false ∧
    validateImageMagicBytes [0x52, 0x49, 0x46, 0x46, 9, 9, 9, 9, 0x57, 0x45, 0x42, 0x50]
      (strData "image/webp") = true ∧
    validateImageMagicBytes
      ([0x52, 0x49, 0x46, 0x46, 9, 9, 9, 9, 0x57, 0x45, 0x42, 0x50].set 8 0)
      (strData "image/webp") = false := by
  refine ⟨by decide, ?_, by decide, ?_⟩
  · exact claim5_magic_bytes.2 _ _ [0x89, 0x50, 0x4e, 0x47, 0x0d, 0x0a, 0x1a, 0x0a] 0 0
      (by decide) (by decide) (by decide)
  · exact claim5_magic_bytes.2 _ _ [0x57, 0x45, 0x42, 0x50] 8 0
      (by decide) (by decide) (by decide)

/-! ## Claim C6 : output raster dimensions -/

/-- C6 counterexample: at the requested size 256 with the 25-module matrix
(the QR version the shortener's URLs use at level M), the PNG raster is 254
pixels square, not 256: the cell size is floored, so the canvas is the
actual size, not the requested one. -/
theorem claim6_counterexample :
    (qrRaster 256 25 (fun _ _ => false)).width = 254 ∧
    (qrRaster 256 25 (fun _ _ => false)).height = 254 ∧
    (254 : Nat) ≠ 256 := by
  refine ⟨rfl, rfl, by decide⟩

/-- C6 amended: the PNG raster is square with side
cellSize times moduleCount plus both margins, where cellSize is the floored
module room; that side never exceeds the requested size and equals it
exactly when moduleCount divides size minus 4; photon compositing
(watermark) preserves the base image's dimensions. -/
theorem claim6_raster_dimensions (size m : Nat) (isDark : Nat → Nat → Bool)
    (base overlay : Img) (ox oy : Nat) (_hm : 0 < m) (hsize : 4 ≤ size) :
    (qrRaster size m isDark).width = ((size - 4) / m) * m + 4 ∧
    (qrRaster size m isDark).height = ((size - 4) / m) * m + 4 ∧
    (qrRaster size m isDark).width ≤ size ∧
    ((m ∣ size - 4) → (qrRaster size m isDark).width = size) ∧
    (watermark base overlay ox oy).width = base.width ∧
    (watermark base overlay ox oy).height = base.height := by
  refine ⟨rfl, rfl, ?_, ?_, rfl, rfl⟩
  · have h := Nat.div_mul_le_self (size - 4) m
    show ((size - 4) / m) * m + 4 ≤ size
    omega
  · intro hdvd
    have h := Nat.div_mul_cancel hdvd
    show ((size - 4) / m) * m + 4 = size
    omega

/-- C6 witness: the amended theorem at size 256 with 21 modules, where the
division is exact and the output side equals the requested size. -/
theorem claim6_witness :
    (qrRaster 256 21 (fun r c => decide (r = c))).width = ((256 - 4) / 21) * 21 + 4 ∧
    (qrRaster 256 21 (fun r c => decide (r = c))).width ≤ 256 ∧
    ((21 ∣ 256 - 4) → (qrRaster 256 21 (fun r c => decide (r = c))).width = 256) ∧
    (watermark (createWhiteImage 3 3) (createWhiteImage 1 1) 1 1).width =
      (createWhiteImage 3 3).width := by
  have h := claim6_raster_dimensions 256 21 (fun r c => decide (r = c))
    (createWhiteImage 3 3) (createWhiteImage 1 1) 1 1 (by decide) (by decide)
  exact ⟨h.1, h.2.2.1, h.2.2.2.1, h.2.2.2.2.1⟩

/-! ## Claim C7 : logo grid-snap arithmetic -/

/-- C7 counterexample: the specification computes the desired logo size from
the requested size, the source from the rounded QR content size.  At
requested size 552 (not a multiple of the 61-module grid: cell 8, content
488), ratio one quarter, the two differ: the source plate spans 19 modules
starting at module 21, the specification's arithmetic would give 21 modules
starting at module 20. -/
theorem claim7_counterexample :
    ((552 - 2 * 2) / 61 : Nat) = 8 ∧
    (gridSnap 61 8 (1/4)).bgModules = 19 ∧
    (gridSnapSpec 552 61 8 (1/4)).bgModules = 21 ∧
    (gridSnap 61 8 (1/4)).logoStartModule = 21 ∧
    (gridSnapSpec 552 61 8 (1/4)).logoStartModule = 20 ∧
    (19 : ℤ) ≠ 21 := by
  have hdes : jsRound (((61 * 8 : Nat) : ℚ) * (1/4)) = 122 := by
    unfold jsRound
    rw [show ((61 * 8 : Nat) : ℚ) * (1/4) + 1/2 = 245/2 by push_cast; norm_num]
    rw [Int.floor_eq_iff]
    norm_num
  have hlm0 : Int.ceil (((122 : ℤ) : ℚ) / ((8 : Nat) : ℚ)) = 16 := by
    rw [show (((122 : ℤ) : ℚ) / ((8 : Nat) : ℚ)) = 61/4 by push_cast; norm_num]
    rw [Int.ceil_eq_iff]
    norm_num
  have hspec : Int.ceil (((552 : Nat) : ℚ) * (1/4) / ((8 : Nat) : ℚ)) = 18 := by
    rw [show ((552 : Nat) : ℚ) * (1/4) / ((8 : Nat) : ℚ) = 69/4 by push_cast; norm_num]
    rw [Int.ceil_eq_iff]
    norm_num
  refine ⟨by decide, ?_, ?_, ?_, ?_, by decide⟩
  · simp only [gridSnap, hdes, hlm0]
    norm_num
  · simp only [gridSnapSpec, hspec]
    norm_num
  · simp only [gridSnap, hdes, hlm0]
    norm_num
    decide
  · simp only [gridSnapSpec, hspec]
    norm_num
    decide

/-- C7 amended: the grid-snap arithmetic of compositeLogoOnQR, with the
desired logo pixel size being Math.round of the QR content size
(moduleCount times cellSize) times the ratio, rather than the requested
output size times the ratio; the remaining steps are as the claim states:
ceiling to whole modules, a two-module padded plate bumped to an odd span
(so the plate covers whole modules and is centered on the odd grid), the
logo recomputed as the plate minus two, and the floored centering offset. -/
theorem claim7_grid_snap_arithmetic (m cell : Nat) (ratio : ℚ) :
    (gridSnap m cell ratio).desiredLogoPx = jsRound (((m * cell : Nat) : ℚ) * ratio) ∧
    ((gridSnap m cell ratio).bgModules =
        Int.ceil (((jsRound (((m * cell : Nat) : ℚ) * ratio) : ℚ)) / (cell : ℚ)) + 2 ∨
     (gridSnap m cell ratio).bgModules =
        Int.ceil (((jsRound (((m * cell : Nat) : ℚ) * ratio) : ℚ)) / (cell : ℚ)) + 3) ∧
    (gridSnap m cell ratio).bgModules % 2 = 1 ∧
    (gridSnap m cell ratio).logoModules = (gridSnap m cell ratio).bgModules - 2 ∧
    (gridSnap m cell ratio).bgSize = (gridSnap m cell ratio).bgModules * cell ∧
    (gridSnap m cell ratio).logoPixels = (gridSnap m cell ratio).logoModules * cell ∧
    (gridSnap m cell ratio).logoStartModule =
      Int.fdiv ((m : ℤ) - (gridSnap m cell ratio).bgModules) 2 := by
  refine ⟨rfl, ?_, ?_, rfl, rfl, rfl, rfl⟩
  · unfold gridSnap
    dsimp only
    split_ifs with hpar
    · right; omega
    · left; rfl
  · unfold gridSnap
    dsimp only
    split_ifs with hpar
    · omega
    · omega

/-! ## Claim C9 : query parameter parsing -/

/-- C9 counterexample: a non-numeric size parameter parses to NaN, which
passes through both Math.max and Math.min unchanged, so the parsed size is
not clamped into the 64..1024 range. -/
theorem claim9_counterexample :
    (parseOptions (some (strData "abc")) none none none).size = none ∧
    ¬ ∃ q : ℚ, (parseOptions (some (strData "abc")) none none none).size = some q ∧
        64 ≤ q ∧ q ≤ 1024 := by
  have h : (parseOptions (some (strData "abc")) none none none).size = none := by decide
  refine ⟨h, ?_⟩
  rintro ⟨q, hq, -⟩
  rw [h] at hq
  cases hq

/-- C9 amended: the format is always png or svg with png the default; the
size and logo_size are clamped into 64..1024 and 0.15..0.35 whenever they
are numbers, with defaults 256 and 0.25 for absent parameters; a
non-numeric size or logo_size parameter yields NaN (none), which escapes
the clamp. -/
theorem claim9_parse_options_clamps (sizeQ formatQ logoQ logoSizeQ : Option (List Char)) :
    ((parseOptions sizeQ formatQ logoQ logoSizeQ).format = QRFormat.png ∨
     (parseOptions sizeQ formatQ logoQ logoSizeQ).format = QRFormat.svg) ∧
    (formatQ = some (strData "svg") →
      (parseOptions sizeQ formatQ logoQ logoSizeQ).format = QRFormat.svg) ∧
    (formatQ ≠ some (strData "svg") →
      (parseOptions sizeQ formatQ logoQ logoSizeQ).format = QRFormat.png) ∧
    (∀ q : ℚ, (parseOptions sizeQ formatQ logoQ logoSizeQ).size = some q →
      64 ≤ q ∧ q ≤ 1024) ∧
    (sizeQ = none → (parseOptions sizeQ formatQ logoQ logoSizeQ).size = some 256) ∧
    (∀ q : ℚ, (parseOptions sizeQ formatQ logoQ logoSizeQ).logoSize = some q →
      15/100 ≤ q ∧ q ≤ 35/100) ∧
    (logoSizeQ = none →
      (parseOptions sizeQ formatQ logoQ logoSizeQ).logoSize = some (25/100)) := by
  refine ⟨?_, ?_, ?_, ?_, ?_, ?_, ?_⟩
  · by_cases h : formatQ = some (strData "svg") <;> simp [parseOptions, h]
  · intro h; simp [parseOptions, h]
  · intro h; simp [parseOptions, h]
  · intro q hq
    rcases hx : jsParseInt (jsOrDefault sizeQ "256") with _ | v
    · simp [parseOptions, jsMinC, jsMaxC, hx] at hq
    · simp [parseOptions, jsMinC, jsMaxC, hx] at hq
      constructor
      · rw [← hq]
        exact le_min (by norm_num) (le_max_left _ _)
      · rw [← hq]
        exact min_le_left _ _
  · intro h
    subst h
    have hp : jsParseInt (jsOrDefault none "256") = some 256 := by decide
    simp [parseOptions, jsMinC, jsMaxC, hp]
    norm_num
  · intro q hq
    rcases hx : jsParseFloat (jsOrDefault logoSizeQ "0.25") with _ | v
    · simp [parseOptions, jsMinC, jsMaxC, hx] at hq
    · simp [parseOptions, jsMinC, jsMaxC, hx] at hq
      constructor
      · rw [← hq]
        exact le_min (by norm_num) (le_max_left _ _)
      · rw [← hq]
        exact min_le_left _ _
  · intro h
    subst h
    have hp : jsParseFloat (jsOrDefault none "0.25") =
        some (((0 : Nat) : ℚ) + ((25 : Nat) : ℚ) / (10 : ℚ) ^ (2 : Nat)) := rfl
    simp [parseOptions, jsMinC, jsMaxC, hp]
    norm_num

/-- C9 witness: the amended theorem applied to concrete queries: an svg
format request, defaults for absent parameters, and an oversized size
clamped to 1024. -/
theorem claim9_witness :
    (parseOptions (some (strData "2000")) (some (strData "svg")) none
        (some (strData "0.9"))).format = QRFormat.svg ∧
    (parseOptions none none none none).size = some 256 ∧
    (parseOptions none none none none).logoSize = some (25/100) ∧
    (64 ≤ (1024 : ℚ) ∧ (1024 : ℚ) ≤ 1024) := by
  refine ⟨?_, ?_, ?_, ?_⟩
  · exact (claim9_parse_options_clamps (some (strData "2000")) (some (strData "svg")) none
      (some (strData "0.9"))).2.1 rfl
  · exact (claim9_parse_options_clamps none none none none).2.2.2.2.1 rfl
  · exact (claim9_parse_options_clamps none none none none).2.2.2.2.2.2 rfl
  · exact (claim9_parse_options_clamps (some (strData "2000")) (some (strData "svg")) none
      (some (strData "0.9"))).2.2.2.1 1024 (by decide)

/-! ## Claim C1 : the Safe Fetcher's redirect handling -/

/-- C1 counterexample: on a redirect chain of length 2 (well under the
claimed default bound of 5), safeFetch returns the second response as-is --
itself a redirect (status 301) -- instead of following to the final
non-redirect response; there is no hop counter and no TooManyRedirects
failure in the source. -/
theorem claim1_counterexample :
    safeFetch c1net (strData "https://a.example/start") =
      Except.ok ⟨301, some (strData "https://c.example/hop2"), none, none, []⟩ ∧
    (300 ≤ (301 : Nat) ∧ (301 : Nat) < 400) ∧
    (c1net (strData "https://c.example/hop2")).status = 200 ∧
    (301 : Nat) ≠ 200 := by
  refine ⟨rfl, by decide, rfl, by decide⟩

/-- C1 amended: safeFetch validates the initial URL and follows at most one
redirect hop: a non-redirect response is returned as fetched; a redirect
without Location fails; a redirect's resolved target is validated, a
validation failure aborts the fetch, and a valid target is fetched once and
returned as-is (even when that second response is itself a redirect); no
configuration bounds a longer chain and no TooManyRedirects failure
exists. -/
theorem claim1_safeFetch_one_hop (net : List Char → JsResponse) (url : List Char) :
    ((validateUrlForFetch url).valid = false →
      safeFetch net url =
        .error ("URL validation failed: " ++ (validateUrlForFetch url).error.getD "")) ∧
    ((validateUrlForFetch url).valid = true →
      ¬(300 ≤ (net url).status ∧ (net url).status < 400) →
      safeFetch net url = .ok (net url)) ∧
    ((validateUrlForFetch url).valid = true →
      300 ≤ (net url).status → (net url).status < 400 →
      (net url).location = none →
      safeFetch net url = .error "Redirect without Location header") ∧
    (∀ loc, (validateUrlForFetch url).valid = true →
      300 ≤ (net url).status → (net url).status < 400 →
      (net url).location = some loc →
      (validateUrlForFetch (resolveLocation loc url)).valid = false →
      safeFetch net url =
        .error ("Redirect blocked: " ++
          (validateUrlForFetch (resolveLocation loc url)).error.getD "")) ∧
    (∀ loc, (validateUrlForFetch url).valid = true →
      300 ≤ (net url).status → (net url).status < 400 →
      (net url).location = some loc →
      (validateUrlForFetch (resolveLocation loc url)).valid = true →
      safeFetch net url = .ok (net (resolveLocation loc url))) := by
  refine ⟨?_, ?_, ?_, ?_, ?_⟩
  · intro hv
    simp [safeFetch, hv]
  · intro hv hst
    simp only [safeFetch, hv, Bool.not_true, Bool.false_eq_true, if_false]
    rw [if_neg hst]
  · intro hv h1 h2 hloc
    simp only [safeFetch, hv, Bool.not_true, Bool.false_eq_true, if_false]
    rw [if_pos ⟨h1, h2⟩, hloc]
  · intro loc hv h1 h2 hloc hrv
    simp only [safeFetch, hv, Bool.not_true, Bool.false_eq_true, if_false]
    rw [if_pos ⟨h1, h2⟩, hloc]
    simp [hrv]
  · intro loc hv h1 h2 hloc hrv
    simp only [safeFetch, hv, Bool.not_true, Bool.false_eq_true, if_false]
    rw [if_pos ⟨h1, h2⟩, hloc]
    simp [hrv]

/-- C1 witness: the one-hop branch of the amended theorem on the concrete
chain: the first hop is validated and fetched, and its response is returned
as fetched. -/
theorem claim1_witness :
    safeFetch c1net (strData "https://a.example/start") =
      Except.ok (c1net (resolveLocation (strData "https://b.example/hop1")
        (strData "https://a.example/start"))) :=
  (claim1_safeFetch_one_hop c1net (strData "https://a.example/start")).2.2.2.2
    (strData "https://b.example/hop1") (by decide) (by decide) (by decide) (by decide) (by decide)

/-! ## Claim C2 : the redirect handler's destination gate -/

/-- C2 counterexample: the stored destination is an https URL to the
cloud-metadata address, which the URL Safety Validator rejects; the redirect
handler nevertheless issues the 302 redirect, because its gate only checks
that the destination parses with the https scheme. -/
theorem claim2_counterexample :
    handleRedirect c2store (fun _ => none) (strData "abc123") =
      .redirect 302 (strData "https://169.254.169.254/steal") ∧
    (validateUrlForFetch (strData "https://169.254.169.254/steal")).valid = false := by
  exact ⟨by decide, by decide⟩

/-- C2 amended: the handler responds not-found exactly for reserved slugs,
missing records, and stored destinations failing the scheme-level
isValidRedirectUrl check (unparsable or non-https); any other destination
is answered with a 302 redirect to it -- including https destinations whose
host the URL Safety Validator would reject. -/
theorem claim2_redirect_gate (store : List Char → Option (List Char))
    (jsonParseLink : List Char → Option LinkData) (slug : List Char) :
    (toLowerStr slug ∈ RESERVED_SLUGS →
      handleRedirect store jsonParseLink slug = .notFound) ∧
    (toLowerStr slug ∉ RESERVED_SLUGS → store slug = none →
      handleRedirect store jsonParseLink slug = .notFound) ∧
    (∀ raw, toLowerStr slug ∉ RESERVED_SLUGS →
      store slug = some raw →
      isValidRedirectUrl ((jsonParseLink raw).getD ⟨raw, 0, strData "unknown"⟩).url = false →
      handleRedirect store jsonParseLink slug = .notFound) ∧
    (∀ raw, toLowerStr slug ∉ RESERVED_SLUGS →
      store slug = some raw →
      isValidRedirectUrl ((jsonParseLink raw).getD ⟨raw, 0, strData "unknown"⟩).url = true →
      handleRedirect store jsonParseLink slug =
        .redirect 302 ((jsonParseLink raw).getD ⟨raw, 0, strData "unknown"⟩).url) := by
  refine ⟨?_, ?_, ?_, ?_⟩
  · intro hres
    simp [handleRedirect, hres]
  · intro hres hnone
    simp [handleRedirect, hres, hnone]
  · intro raw hres hsome hbad
    simp [handleRedirect, hres, hsome, hbad]
  · intro raw hres hsome hgood
    simp [handleRedirect, hres, hsome, hgood]

/-- C2 witness: the amended theorem on concrete stores: an ftp destination
is answered not-found; the https metadata destination is redirected to. -/
theorem claim2_witness :
    handleRedirect (fun _ => some (strData "ftp://internal/x")) (fun _ => none)
      (strData "zzz") = .notFound ∧
    handleRedirect c2store (fun _ => none) (strData "abc123") =
      .redirect 302 (strData "https://169.254.169.254/steal") := by
  constructor
  · exact (claim2_redirect_gate (fun _ => some (strData "ftp://internal/x")) (fun _ => none)
      (strData "zzz")).2.2.1 (strData "ftp://internal/x") (by decide) rfl (by decide)
  · exact (claim2_redirect_gate c2store (fun _ => none) (strData "abc123")).2.2.2
      (strData "https://169.254.169.254/steal") (by decide) (by decide) (by decide)

/-! ## Claim C3 : the URL Safety Validator

The ten lemmas below settle the validator's behavior class by class, for
hostnames as the platform URL parser serializes them (lowercased, which the
first hypothesis of each lemma records). -/

theorem claim3_parse_fail (s : List Char) (h : parseURL s = none) :
    validateUrlForFetch s = vErr "Invalid URL format" := by
  simp [validateUrlForFetch, h]

theorem claim3_scheme (p : UrlParts) (h : p.protocol ≠ strData "https:") :
    validateParsedUrl p = vErr "Only HTTPS URLs are allowed" := by
  simp [validateParsedUrl, h]

theorem claim3_credentials (p : UrlParts) (hp : p.protocol = strData "https:")
    (hc : p.username ≠ [] ∨ p.password ≠ []) :
    validateParsedUrl p = vErr "URLs with credentials are not allowed" := by
  unfold validateParsedUrl
  rw [if_neg (by simp [hp]), if_pos (by rcases hc with h | h <;> simp [h])]

theorem claim3_blocked (p : UrlParts) (hLow : toLowerStr p.hostname = p.hostname)
    (hp : p.protocol = strData "https:") (hu : p.username = []) (hw : p.password = [])
    (hb : p.hostname ∈ BLOCKED_HOSTNAMES ∨
      (∃ suf ∈ BLOCKED_HOSTNAME_SUFFIXES, suf.isSuffixOf p.hostname = true) ∨
      p.hostname ∈ CLOUD_METADATA_IPS) :
    validateParsedUrl p = vErr "Internal or metadata hostnames are not allowed" := by
  have hbb : isBlockedHostname p.hostname = true := by
    unfold isBlockedHostname
    rw [hLow]
    rcases hb with h | ⟨suf, hsm, hss⟩ | h
    · simp [h]
    · have : BLOCKED_HOSTNAME_SUFFIXES.any (fun suf => suf.isSuffixOf p.hostname) = true :=
        List.any_eq_true.mpr ⟨suf, hsm, hss⟩
      simp [this]
    · simp [h]
  unfold validateParsedUrl
  rw [if_neg (by simp [hp]), if_neg (by simp [hu, hw])]
  simp only [hLow, hbb, if_pos]

theorem claim3_ipv4_private (p : UrlParts) (n : Nat)
    (hLow : toLowerStr p.hostname = p.hostname)
    (hp : p.protocol = strData "https:") (hu : p.username = []) (hw : p.password = [])
    (hall : p.hostname.all digitDot = true)
    (hmeta : p.hostname ∉ CLOUD_METADATA_IPS)
    (h4 : isIPv4Address p.hostname = true)
    (hparse : parseIPv4 p.hostname = some n)
    (hpriv : isPrivateIPv4 n = true) :
    validateParsedUrl p = vErr "Private IP addresses are not allowed" := by
  have hb : isBlockedHostname p.hostname = false :=
    isBlockedHostname_eq_false hall hLow blockedNames_digitDot blockedSufs_digitDot hmeta
  unfold validateParsedUrl
  rw [if_neg (by simp [hp]), if_neg (by simp [hu, hw])]
  simp only [hLow]
  rw [if_neg (by simp [hb]), if_pos h4, hparse]
  simp [hpriv]

theorem claim3_ipv6_private (p : UrlParts)
    (hLow : toLowerStr p.hostname = p.hostname)
    (hp : p.protocol = strData "https:") (hu : p.username = []) (hw : p.password = [])
    (hb : isBlockedHostname p.hostname = false)
    (h4 : isIPv4Address p.hostname = false)
    (hgate : (isIPv6Address (stripBrackets p.hostname) || isIPv6Address p.hostname) = true)
    (hpriv : (isPrivateIPv6 (stripBrackets p.hostname) || isPrivateIPv6 p.hostname) = true) :
    validateParsedUrl p = vErr "Private IPv6 addresses are not allowed" := by
  unfold validateParsedUrl
  rw [if_neg (by simp [hp]), if_neg (by simp [hu, hw])]
  simp only [hLow]
  rw [if_neg (by simp [hb]), if_neg (by simp [h4])]
  unfold checkHostTail
  rw [if_pos (by simp [hgate, hpriv])]

theorem claim3_numeric (p : UrlParts)
    (hLow : toLowerStr p.hostname = p.hostname)
    (hp : p.protocol = strData "https:") (hu : p.username = []) (hw : p.password = [])
    (hne : p.hostname ≠ []) (hall : p.hostname.all isDigitCh = true) :
    validateParsedUrl p = vErr "Numeric hostnames are not allowed" := by
  have hdot : '.' ∉ p.hostname := not_mem_of_all hall (by decide)
  have hcolon : ':' ∉ p.hostname := not_mem_of_all hall (by decide)
  have hlb : '[' ∉ p.hostname := not_mem_of_all hall (by decide)
  have hrb : ']' ∉ p.hostname := not_mem_of_all hall (by decide)
  have hb : isBlockedHostname p.hostname = false :=
    isBlockedHostname_eq_false hall hLow blockedNames_digit blockedSufs_digit
      (not_mem_of_all_witness hall metaIPs_digit)
  have h4 : isIPv4Address p.hostname = false := isIPv4Address_eq_false_of_no_dot hdot
  have hsb : stripBrackets p.hostname = p.hostname := stripBrackets_eq_self _ hlb hrb
  have h6a : isIPv6Address (stripBrackets p.hostname) = false := by
    rw [hsb]; exact isIPv6Address_eq_false hcolon
  have h6b : isIPv6Address p.hostname = false := isIPv6Address_eq_false hcolon
  have hnum : isNumericHost p.hostname = true := by
    unfold isNumericHost
    rcases hx : p.hostname with _ | ⟨c, t⟩
    · exact absurd hx hne
    · rw [hx] at hall
      simp [hall]
  unfold validateParsedUrl
  rw [if_neg (by simp [hp]), if_neg (by simp [hu, hw])]
  simp only [hLow]
  rw [if_neg (by simp [hb]), if_neg (by simp [h4])]
  unfold checkHostTail
  rw [if_neg (by simp [h6a, h6b]), if_pos (by simp [hnum])]

theorem claim3_hex (p : UrlParts) (ds : List Char)
    (hLow : toLowerStr p.hostname = p.hostname)
    (hp : p.protocol = strData "https:") (hu : p.username = []) (hw : p.password = [])
    (hh : p.hostname = '0' :: 'x' :: ds) (hne : ds ≠ []) (hds : ds.all isHexCh = true) :
    validateParsedUrl p = vErr "Octal/hex IP notation is not allowed" := by
  have hall : p.hostname.all hexOrX = true := by
    rw [hh]
    simp only [List.all_cons, Bool.and_eq_true]
    refine ⟨by decide, by decide, ?_⟩
    exact List.all_eq_true.mpr (fun c hc => by
      have := List.all_eq_true.mp hds c hc
      simp [hexOrX, this])
  have hdot : '.' ∉ p.hostname := not_mem_of_all hall (by decide)
  have hcolon : ':' ∉ p.hostname := not_mem_of_all hall (by decide)
  have hlb : '[' ∉ p.hostname := not_mem_of_all hall (by decide)
  have hrb : ']' ∉ p.hostname := not_mem_of_all hall (by decide)
  have hb : isBlockedHostname p.hostname = false :=
    isBlockedHostname_eq_false hall hLow blockedNames_hexOrX blockedSufs_hexOrX
      (not_mem_of_all_witness hall metaIPs_hexOrX)
  have h4 : isIPv4Address p.hostname = false := isIPv4Address_eq_false_of_no_dot hdot
  have hsb : stripBrackets p.hostname = p.hostname := stripBrackets_eq_self _ hlb hrb
  have h6a : isIPv6Address (stripBrackets p.hostname) = false := by
    rw [hsb]; exact isIPv6Address_eq_false hcolon
  have h6b : isIPv6Address p.hostname = false := isIPv6Address_eq_false hcolon
  have hxmem : 'x' ∈ p.hostname := by rw [hh]; simp
  have hnum : isNumericHost p.hostname = false := isNumericHost_eq_false hxmem (by decide)
  have hhex : matchHexGroups p.hostname = true := by rw [hh]; exact matchHexGroups_hex hne hds
  unfold validateParsedUrl
  rw [if_neg (by simp [hp]), if_neg (by simp [hu, hw])]
  simp only [hLow]
  rw [if_neg (by simp [hb]), if_neg (by simp [h4])]
  unfold checkHostTail
  rw [if_neg (by simp [h6a, h6b]), if_neg (by simp [hnum]), if_pos (by simp [hhex])]

theorem claim3_octal (p : UrlParts) (a b : List Char)
    (hLow : toLowerStr p.hostname = p.hostname)
    (hp : p.protocol = strData "https:") (hu : p.username = []) (hw : p.password = [])
    (hh : p.hostname = '0' :: (a ++ '.' :: '0' :: b))
    (ha1 : a ≠ []) (ha2 : a.all isDigitCh = true)
    (hb1 : b ≠ []) (hb2 : b.all isDigitCh = true) :
    validateParsedUrl p = vErr "Octal/hex IP notation is not allowed" := by
  have hall : p.hostname.all digitDot = true := by
    rw [hh]
    simp only [List.all_cons, List.all_append, Bool.and_eq_true]
    refine ⟨by decide, ?_, by decide, by decide, ?_⟩
    · exact List.all_eq_true.mpr (fun c hc => by
        have := List.all_eq_true.mp ha2 c hc
        simp [digitDot, this])
    · exact List.all_eq_true.mpr (fun c hc => by
        have := List.all_eq_true.mp hb2 c hc
        simp [digitDot, this])
  have hcolon : ':' ∉ p.hostname := not_mem_of_all hall (by decide)
  have hlb : '[' ∉ p.hostname := not_mem_of_all hall (by decide)
  have hrb : ']' ∉ p.hostname := not_mem_of_all hall (by decide)
  have hmeta : p.hostname ∉ CLOUD_METADATA_IPS := by
    intro hm
    simp only [CLOUD_METADATA_IPS, List.mem_cons, List.not_mem_nil, or_false] at hm
    rcases hm with h1 | h1 | h1
    · rw [hh] at h1
      have hhc : ('0' : Char) = '1' := congrArg (fun l => l.headD ' ') h1
      exact absurd hhc (by decide)
    · rw [hh] at h1
      have hhc : ('0' : Char) = '1' := congrArg (fun l => l.headD ' ') h1
      exact absurd hhc (by decide)
    · exact hcolon (by rw [h1]; decide)
  have hb : isBlockedHostname p.hostname = false :=
    isBlockedHostname_eq_false hall hLow blockedNames_digitDot blockedSufs_digitDot hmeta
  have hsplit : splitOnChar '.' p.hostname = ('0' :: a) :: [('0' :: b)] := by
    rw [hh]
    have e : ('0' :: (a ++ '.' :: '0' :: b)) = ('0' :: a) ++ '.' :: ('0' :: b) := by simp
    rw [e, splitOnChar_append_sep _ _ _ ?hsep]
    case hsep =>
      intro d hd he
      subst he
      simp only [List.mem_cons] at hd
      rcases hd with h | hd
      · exact absurd h (by decide)
      · have := List.all_eq_true.mp ha2 _ hd
        exact absurd this (by decide)
    rw [splitOnChar_eq_single _ _ ?hsep2]
    case hsep2 =>
      intro d hd he
      subst he
      simp only [List.mem_cons] at hd
      rcases hd with h | hd
      · exact absurd h (by decide)
      · have := List.all_eq_true.mp hb2 _ hd
        exact absurd this (by decide)
  have h4 : isIPv4Address p.hostname = false := by
    unfold isIPv4Address
    rw [hsplit]
    simp
  have hsb : stripBrackets p.hostname = p.hostname := stripBrackets_eq_self _ hlb hrb
  have h6a : isIPv6Address (stripBrackets p.hostname) = false := by
    rw [hsb]; exact isIPv6Address_eq_false hcolon
  have h6b : isIPv6Address p.hostname = false := isIPv6Address_eq_false hcolon
  have hdotmem : '.' ∈ p.hostname := by rw [hh]; simp
  have hnum : isNumericHost p.hostname = false := isNumericHost_eq_false hdotmem (by decide)
  have hoct : matchOctGroups p.hostname = true := by
    rw [hh]; exact matchOctGroups_dotted ha1 ha2 hb1 hb2
  unfold validateParsedUrl
  rw [if_neg (by simp [hp]), if_neg (by simp [hu, hw])]
  simp only [hLow]
  rw [if_neg (by simp [hb]), if_neg (by simp [h4])]
  unfold checkHostTail
  rw [if_neg (by simp [h6a, h6b]), if_neg (by simp [hnum]), if_pos (by simp [hoct])]

theorem claim3_accepts (p : UrlParts) (c : Char) (t : List Char)
    (hLow : toLowerStr p.hostname = p.hostname)
    (hp : p.protocol = strData "https:") (hu : p.username = []) (hw : p.password = [])
    (hh : p.hostname = c :: t) (haz : 'a' ≤ c ∧ c ≤ 'z')
    (hall : p.hostname.all hostChar = true)
    (hnames : p.hostname ∉ BLOCKED_HOSTNAMES)
    (hsufs : ∀ suf ∈ BLOCKED_HOSTNAME_SUFFIXES, suf.isSuffixOf p.hostname = false) :
    validateParsedUrl p = vOk := by
  have hcolon : ':' ∉ p.hostname := not_mem_of_all hall (by decide)
  have hlb : '[' ∉ p.hostname := not_mem_of_all hall (by decide)
  have hrb : ']' ∉ p.hostname := not_mem_of_all hall (by decide)
  have hmeta : p.hostname ∉ CLOUD_METADATA_IPS := by
    intro hm
    simp only [CLOUD_METADATA_IPS, List.mem_cons, List.not_mem_nil, or_false] at hm
    rcases hm with h1 | h1 | h1
    · rw [hh] at h1
      have hc1 : c = '1' := congrArg (fun l => l.headD ' ') h1
      rw [hc1] at haz
      exact absurd haz.1 (by decide)
    · rw [hh] at h1
      have hc1 : c = '1' := congrArg (fun l => l.headD ' ') h1
      rw [hc1] at haz
      exact absurd haz.1 (by decide)
    · exact hcolon (by rw [h1]; decide)
  have hblocked : isBlockedHostname p.hostname = false := by
    unfold isBlockedHostname
    rw [hLow]
    have g2 : BLOCKED_HOSTNAME_SUFFIXES.any (fun suf => suf.isSuffixOf p.hostname) = false :=
      List.any_eq_false.mpr (fun suf hs => by simp [hsufs suf hs])
    simp [hnames, hmeta, g2]
  have hdigc : isDigitCh c = false := by
    unfold isDigitCh
    have h97 : ('a' : Char).toNat ≤ c.toNat := haz.1
    have h9 : ¬ (c ≤ '9') := by
      intro hle
      have h57 : c.toNat ≤ ('9' : Char).toNat := hle
      have e1 : ('a' : Char).toNat = 97 := rfl
      have e2 : ('9' : Char).toNat = 57 := rfl
      omega
    simp [h9]
  have h4 : isIPv4Address p.hostname = false := by
    rw [hh]; exact isIPv4Address_eq_false_of_head hdigc
  have hsb : stripBrackets p.hostname = p.hostname := stripBrackets_eq_self _ hlb hrb
  have h6a : isIPv6Address (stripBrackets p.hostname) = false := by
    rw [hsb]; exact isIPv6Address_eq_false hcolon
  have h6b : isIPv6Address p.hostname = false := isIPv6Address_eq_false hcolon
  have hcmem : c ∈ p.hostname := by rw [hh]; simp
  have hnum : isNumericHost p.hostname = false := isNumericHost_eq_false hcmem hdigc
  have hc0 : c ≠ '0' := by
    intro he
    rw [he] at haz
    exact absurd haz.1 (by decide)
  have hhexf : matchHexGroups p.hostname = false := by
    rw [hh]; exact matchHexGroups_eq_false_of_head hc0
  have hoctf : matchOctGroups p.hostname = false := by
    rw [hh]; exact matchOctGroups_eq_false_of_head hc0
  unfold validateParsedUrl
  rw [if_neg (by simp [hp]), if_neg (by simp [hu, hw])]
  simp only [hLow]
  rw [if_neg (by simp [hblocked]), if_neg (by simp [h4])]
  unfold checkHostTail
  rw [if_neg (by simp [h6a, h6b]), if_neg (by simp [hnum]),
    if_neg (by simp [hhexf, hoctf])]

/-- C3: the URL Safety Validator rejects, with the corresponding error of
the specified check order: unparsable URLs, non-https schemes, embedded
credentials, blocklisted or cloud-metadata hostnames, private dotted
IPv4 literals (metadata literals having already been caught by the
blocklist), private IPv6 literals (loopback, unspecified, link-local,
unique-local and IPv4-mapped forms, per isPrivateIPv6), purely numeric
hostnames, and hex- or dotted-octal-encoded IPs; and it accepts every
ordinary public https hostname (letter-headed, lowercase DNS characters,
not blocklisted) with no credentials. -/
theorem claim3_validator :
    (∀ s : List Char, parseURL s = none →
      validateUrlForFetch s = vErr "Invalid URL format") ∧
    (∀ p : UrlParts, p.protocol ≠ strData "https:" →
      validateParsedUrl p = vErr "Only HTTPS URLs are allowed") ∧
    (∀ p : UrlParts, p.protocol = strData "https:" →
      (p.username ≠ [] ∨ p.password ≠ []) →
      validateParsedUrl p = vErr "URLs with credentials are not allowed") ∧
    (∀ p : UrlParts, toLowerStr p.hostname = p.hostname →
      p.protocol = strData "https:" → p.username = [] → p.password = [] →
      (p.hostname ∈ BLOCKED_HOSTNAMES ∨
        (∃ suf ∈ BLOCKED_HOSTNAME_SUFFIXES, suf.isSuffixOf p.hostname = true) ∨
        p.hostname ∈ CLOUD_METADATA_IPS) →
      validateParsedUrl p = vErr "Internal or metadata hostnames are not allowed") ∧
    (∀ (p : UrlParts) (n : Nat), toLowerStr p.hostname = p.hostname →
      p.protocol = strData "https:" → p.username = [] → p.password = [] →
      p.hostname.all digitDot = true → p.hostname ∉ CLOUD_METADATA_IPS →
      isIPv4Address p.hostname = true → parseIPv4 p.hostname = some n →
      isPrivateIPv4 n = true →
      validateParsedUrl p = vErr "Private IP addresses are not allowed") ∧
    (∀ p : UrlParts, toLowerStr p.hostname = p.hostname →
      p.protocol = strData "https:" → p.username = [] → p.password = [] →
      isBlockedHostname p.hostname = false → isIPv4Address p.hostname = false →
      (isIPv6Address (stripBrackets p.hostname) || isIPv6Address p.hostname) = true →
      (isPrivateIPv6 (stripBrackets p.hostname) || isPrivateIPv6 p.hostname) = true →
      validateParsedUrl p = vErr "Private IPv6 addresses are not allowed") ∧
    (∀ p : UrlParts, toLowerStr p.hostname = p.hostname →
      p.protocol = strData "https:" → p.username = [] → p.password = [] →
      p.hostname ≠ [] → p.hostname.all isDigitCh = true →
      validateParsedUrl p = vErr "Numeric hostnames are not allowed") ∧
    (∀ (p : UrlParts) (ds : List Char), toLowerStr p.hostname = p.hostname →
      p.protocol = strData "https:" → p.username = [] → p.password = [] →
      p.hostname = '0' :: 'x' :: ds → ds ≠ [] → ds.all isHexCh = true →
      validateParsedUrl p = vErr "Octal/hex IP notation is not allowed") ∧
    (∀ (p : UrlParts) (a b : List Char), toLowerStr p.hostname = p.hostname →
      p.protocol = strData "https:" → p.username = [] → p.password = [] →
      p.hostname = '0' :: (a ++ '.' :: '0' :: b) →
      a ≠ [] → a.all isDigitCh = true → b ≠ [] → b.all isDigitCh = true →
      validateParsedUrl p = vErr "Octal/hex IP notation is not allowed") ∧
    (∀ (p : UrlParts) (c : Char) (t : List Char), toLowerStr p.hostname = p.hostname →
      p.protocol = strData "https:" → p.username = [] → p.password = [] →
      p.hostname = c :: t → ('a' ≤ c ∧ c ≤ 'z') →
      p.hostname.all hostChar = true →
      p.hostname ∉ BLOCKED_HOSTNAMES →
      (∀ suf ∈ BLOCKED_HOSTNAME_SUFFIXES, suf.isSuffixOf p.hostname = false) →
      validateParsedUrl p = vOk) :=
  ⟨claim3_parse_fail, claim3_scheme, claim3_credentials,
   fun p hLow hp hu hw hb => claim3_blocked p hLow hp hu hw hb,
   fun p n hLow hp hu hw hall hmeta h4 hparse hpriv =>
     claim3_ipv4_private p n hLow hp hu hw hall hmeta h4 hparse hpriv,
   claim3_ipv6_private, claim3_numeric, claim3_hex, claim3_octal, claim3_accepts⟩

/-- C3 witness: the validator theorem applied to one concrete carrier of
each class: a malformed URL, an http URL, credentials, the localhost
blocklist entry, the private literal 10.0.0.1, the bracketed link-local
IPv6 literal, the decimal-encoded loopback IP, the hex-encoded loopback
IP, a dotted-octal IP, and the public hostname example.com. -/
theorem claim3_witness :
    validateUrlForFetch (strData "not a url") = vErr "Invalid URL format" ∧
    validateParsedUrl ⟨strData "http:", [], [], strData "example.com"⟩ =
      vErr "Only HTTPS URLs are allowed" ∧
    validateParsedUrl ⟨strData "https:", strData "user", strData "pass", strData "example.com"⟩ =
      vErr "URLs with credentials are not allowed" ∧
    validateParsedUrl ⟨strData "https:", [], [], strData "localhost"⟩ =
      vErr "Internal or metadata hostnames are not allowed" ∧
    validateParsedUrl ⟨strData "https:", [], [], strData "10.0.0.1"⟩ =
      vErr "Private IP addresses are not allowed" ∧
    validateParsedUrl ⟨strData "https:", [], [], strData "[fe80::1]"⟩ =
      vErr "Private IPv6 addresses are not allowed" ∧
    validateParsedUrl ⟨strData "https:", [], [], strData "2130706433"⟩ =
      vErr "Numeric hostnames are not allowed" ∧
    validateParsedUrl ⟨strData "https:", [], [], strData "0x7f000001"⟩ =
      vErr "Octal/hex IP notation is not allowed" ∧
    validateParsedUrl ⟨strData "https:", [], [], strData "0177.0171"⟩ =
      vErr "Octal/hex IP notation is not allowed" ∧
    validateParsedUrl ⟨strData "https:", [], [], strData "example.com"⟩ = vOk := by
  refine ⟨?_, ?_, ?_, ?_, ?_, ?_, ?_, ?_, ?_, ?_⟩
  · exact claim3_validator.1 _ (by decide)
  · exact claim3_validator.2.1 _ (by decide)
  · exact claim3_validator.2.2.1 _ (by decide) (Or.inl (by decide))
  · exact claim3_validator.2.2.2.1 _ (by decide) (by decide) (by decide) (by decide)
      (Or.inl (by decide))
  · exact claim3_validator.2.2.2.2.1 _ 0x0a000001 (by decide) (by decide) (by decide)
      (by decide) (by decide) (by decide) (by decide) (by decide) (by decide)
  · exact claim3_validator.2.2.2.2.2.1 _ (by decide) (by decide) (by decide) (by decide)
      (by decide) (by decide) (by decide) (by decide)
  · exact claim3_validator.2.2.2.2.2.2.1 _ (by decide) (by decide) (by decide) (by decide)
      (by decide) (by decide)
  · exact claim3_validator.2.2.2.2.2.2.2.1 _ (strData "7f000001") (by decide) (by decide)
      (by decide) (by decide) (by decide) (by decide) (by decide)
  · exact claim3_validator.2.2.2.2.2.2.2.2.1 _ (strData "177") (strData "171") (by decide)
      (by decide) (by decide) (by decide) (by decide) (by decide) (by decide) (by decide)
      (by decide)
  · exact claim3_validator.2.2.2.2.2.2.2.2.2 _ 'e' (strData "xample.com") (by decide)
      (by decide) (by decide) (by decide) (by decide) (by decide) (by decide) (by decide)
      (by decide)

/-! ## Claim C4 : logo failure fallback -/

/-- C4: whenever the logo path of a QR render fails — any error of the
compositing step for PNG, any error of the data-URI step for SVG, which
cover validation, fetch, content-type, size, magic-byte, decode, resize
and compositing failures — the handler still serves status 200 with the
bare QR (the PNG branch returns the unmodified raster, the SVG branch the
QR document plus a diagnostic comment); both branches return 200 on every
input; and the concrete request logo=http://169.254.169.254/evil is
rejected by the URL validator before the network oracle is ever consulted
(the outcome is the same fixed validation error for every network, decoder
and resizer), so that request too yields a 200 response carrying the bare
QR raster. -/
theorem claim4_logo_failure_fallback :
    (∀ (qrImage : Img) (composite : List Char → Except String Img) (logo : List Char)
      (e : String), composite logo = .error e →
      handleQRPngBranch qrImage (some logo) composite = ⟨200, qrImage⟩) ∧
    (∀ (qrImage : Img) (resolvedLogo : Option (List Char))
      (composite : List Char → Except String Img),
      (handleQRPngBranch qrImage resolvedLogo composite).status = 200) ∧
    (∀ (svg : List Char) (logoStep : List Char → Except String (List Char))
      (logo : List Char) (e : String), logoStep logo = .error e →
      handleQRSvgBranch svg (some logo) logoStep =
        ⟨200, svgLogoErrorFallback svg (strData e)⟩) ∧
    (∀ (svg : List Char) (resolvedLogo : Option (List Char))
      (logoStep : List Char → Except String (List Char)),
      (handleQRSvgBranch svg resolvedLogo logoStep).status = 200) ∧
    (∀ (net : List Char → JsResponse) (decodeImage : List Nat → Option Img)
      (resizeImage : Img → Nat → Nat → Option Img) (qrImage : Img) (ratio : ℚ)
      (mc cs mg : Option Nat),
      compositeLogoOnQR net decodeImage resizeImage qrImage
        (strData "http://169.254.169.254/evil") ratio mc cs mg =
        .error "URL validation failed: Only HTTPS URLs are allowed") ∧
    (∀ (net : List Char → JsResponse) (decodeImage : List Nat → Option Img)
      (resizeImage : Img → Nat → Nat → Option Img) (qrImage : Img) (ratio : ℚ)
      (mc cs mg : Option Nat),
      handleQRPngBranch qrImage (some (strData "http://169.254.169.254/evil"))
        (fun logo => compositeLogoOnQR net decodeImage resizeImage qrImage logo
          ratio mc cs mg) = ⟨200, qrImage⟩) := by
  refine ⟨?_, ?_, ?_, ?_, ?_, ?_⟩
  · intro qrImage composite logo e h
    simp [handleQRPngBranch, h]
  · intro qrImage resolvedLogo composite
    cases resolvedLogo with
    | none => rfl
    | some l => cases hc : composite l <;> simp [handleQRPngBranch, hc]
  · intro svg logoStep logo e h
    simp [handleQRSvgBranch, h]
  · intro svg resolvedLogo logoStep
    cases resolvedLogo with
    | none => rfl
    | some l => cases hc : logoStep l <;> simp [handleQRSvgBranch, hc]
  · intro net decodeImage resizeImage qrImage ratio mc cs mg
    rfl
  · intro net decodeImage resizeImage qrImage ratio mc cs mg
    rfl

/-- C4 witness: the fallback theorem applied to a concrete raster, a
concrete failing compositing step, and the concrete metadata-IP logo URL
with a trivial network oracle, a decoder and a resizer that always fail. -/
theorem claim4_witness :
    handleQRPngBranch (createWhiteImage 8 8) (some (strData "logo"))
      (fun _ => Except.error "boom") = ⟨200, createWhiteImage 8 8⟩ ∧
    handleQRSvgBranch (strData "<svg></svg>") (some (strData "logo"))
      (fun _ => Except.error "boom") =
      ⟨200, svgLogoErrorFallback (strData "<svg></svg>") (strData "boom")⟩ ∧
    compositeLogoOnQR (fun _ => ⟨200, none, none, none, []⟩) (fun _ => none)
      (fun _ _ _ => none) (createWhiteImage 8 8)
      (strData "http://169.254.169.254/evil") (1/4) none none none =
      Except.error "URL validation failed: Only HTTPS URLs are allowed" ∧
    handleQRPngBranch (createWhiteImage 8 8)
      (some (strData "http://169.254.169.254/evil"))
      (fun logo => compositeLogoOnQR (fun _ => ⟨200, none, none, none, []⟩)
        (fun _ => none) (fun _ _ _ => none) (createWhiteImage 8 8) logo (1/4)
        none none none) = ⟨200, createWhiteImage 8 8⟩ :=
  ⟨claim4_logo_failure_fallback.1 (createWhiteImage 8 8)
      (fun _ => Except.error "boom") (strData "logo") "boom" rfl,
   claim4_logo_failure_fallback.2.2.1 (strData "<svg></svg>")
      (fun _ => Except.error "boom") (strData "logo") "boom" rfl,
   claim4_logo_failure_fallback.2.2.2.2.1 (fun _ => ⟨200, none, none, none, []⟩)
      (fun _ => none) (fun _ _ _ => none) (createWhiteImage 8 8) (1/4) none none none,
   claim4_logo_failure_fallback.2.2.2.2.2 (fun _ => ⟨200, none, none, none, []⟩)
      (fun _ => none) (fun _ _ _ => none) (createWhiteImage 8 8) (1/4) none none none⟩

end Gitly
